import Mathlib

/-!
Verification development for the sqlc-gen-go nested-grouping generator.

This file embeds, in Lean, the parts of the generator that the specification
talks about:

* the acronym-aware naming engine (source file `part_003`, package `golang`);
* the nested-configuration option types and their accessors
  (`internal/opts`, accessors in `internal/gen.go`);
* configuration default population (`populateNestedConfigWithDefaultValues`);
* the composite-structure registry (`internal/nested_composites.go`);
* the nesting-tree builder (`internal/nested.go`);
* the structural validators (`internal/nested_validation.go`).

Modelling conventions:

* Characters are modelled by their code points (`Nat`); strings that the
  naming engine manipulates are `List Nat`.  Go's `strings.ToUpper` /
  `strings.ToLower` are modelled on the ASCII range, which is the range the
  generator's identifiers use.
* Go maps are modelled as association lists.  Where Go iterates a map in
  unspecified order, the model iterates in insertion order; every fact proved
  about such data is order-insensitive (membership, emptiness).
* Go's `error` results are modelled with `Except GoErr`; a `nil`-pointer
  dereference (a Go runtime panic) is modelled as an explicit error value.
* Functions whose Go counterpart can recurse without bound (through the
  composite registry) take an explicit fuel argument; exhausting the fuel
  models divergence.
-/

namespace golang

/-! ## Naming / inflection engine (src/unnamed/part_003) -/

/-- Code point of the underscore separator. -/
def usc : Nat := 95

/-- ASCII uppercase test: the character class `[A-Z]` of the camel-case
boundary regular expression `namingCamelPattern`. -/
def isUp (c : Nat) : Bool := 65 ≤ c && c ≤ 90

/-- ASCII behaviour of Go `strings.ToLower`, per character. -/
def toLow (c : Nat) : Nat := if 65 ≤ c && c ≤ 90 then c + 32 else c

/-- ASCII behaviour of Go `strings.ToUpper`, per character. -/
def toUpp (c : Nat) : Nat := if 97 ≤ c && c ≤ 122 then c - 32 else c

/-- ASCII lowercase letter. -/
def lowAlpha (c : Nat) : Bool := 97 ≤ c && c ≤ 122

/-- Convert a Lean string literal to its code-point list (used to state
concrete facts about the model). -/
def str (s : String) : List Nat := s.data.map Char.toNat

/-- The `commonInitialisms` set of part_003. -/
def commonInitialisms : List (List Nat) :=
  [str "ACL", str "API", str "ASCII", str "CPU", str "CSS", str "DNS",
   str "EOF", str "GUID", str "HTML", str "HTTP", str "HTTPS", str "ID",
   str "IP", str "JSON", str "LHS", str "QPS", str "RAM", str "RHS",
   str "RPC", str "SLA", str "SMTP", str "SQL", str "SSH", str "TCP",
   str "TLS", str "TTL", str "UDP", str "UI", str "UID", str "UUID",
   str "URI", str "URL", str "UTF8", str "VM", str "XML", str "XMPP",
   str "XSRF", str "XSS"]

/-- Replacement semantics of `namingCamelPattern.ReplaceAllStringFunc(s,
x[:1]+"_"+x[1:])`: every leftmost non-overlapping match of `[^A-Z][A-Z]+`
gets an underscore inserted after its first character.  Because each match
consists of one non-uppercase character followed by a maximal uppercase run,
this is the same as inserting an underscore between every non-uppercase
character and an immediately following uppercase character. -/
def insertCamelUnderscores : List Nat → List Nat
  | [] => []
  | [c] => [c]
  | c :: d :: rest =>
    if !isUp c && isUp d then c :: usc :: insertCamelUnderscores (d :: rest)
    else c :: insertCamelUnderscores (d :: rest)

/-- PascalToSnakeCase from part_003: insert underscores at camel-case
boundaries, then lower-case the whole string.  (The Go function returns the
empty string unchanged; the model agrees on `[]`.) -/
def PascalToSnakeCase (s : List Nat) : List Nat :=
  (insertCamelUnderscores s).map toLow

/-- Go `strings.Split(s, "_")`: splits at every underscore, keeping empty
segments; the empty string yields one empty segment. -/
def splitUnderscore : List Nat → List (List Nat)
  | [] => [[]]
  | c :: rest =>
    if c = usc then [] :: splitUnderscore rest
    else
      match splitUnderscore rest with
      | [] => [[c]]
      | p :: ps => (c :: p) :: ps

/-- One loop iteration of `ToPascalCaseWithInitialisms`: an initialism is
emitted fully upper-case, any other part is title-cased
(`strings.ToUpper(part[:1]) + strings.ToLower(part[1:])`). -/
def renderPart (p : List Nat) : List Nat :=
  let up := p.map toUpp
  if commonInitialisms.contains up then up
  else
    match p with
    | [] => []
    | c :: rest => toUpp c :: rest.map toLow

/-- ToPascalCaseWithInitialisms from part_003. -/
def ToPascalCaseWithInitialisms (s : List Nat) : List Nat :=
  if s = [] then s
  else
    let snakeCase := if s.contains usc then s else PascalToSnakeCase s
    let parts := splitUnderscore snakeCase
    ((parts.filter (fun p => !p.isEmpty)).map renderPart).flatten

/-- Join parts with underscores (inverse of `splitUnderscore` on
underscore-free parts); used to state properties about snake_case inputs. -/
def joinUnderscore : List (List Nat) → List Nat
  | [] => []
  | [p] => p
  | p :: ps => p ++ usc :: joinUnderscore ps

/-! ## Option / configuration types (internal/opts, internal/gen.go) -/

/-- NestedMatchConfig from internal/gen.go (package opts). -/
structure NestedMatchConfig where
  fromStruct : Option String
  fromField : Option String
  toStruct : String
  toField : Option String
deriving DecidableEq

mutual
/-- NestedGroupConfig from internal/gen.go (package opts).  The recursive
`Group` field forces a mutual inductive with its own list type. -/
inductive NestedGroupConfig where
  | mk (fieldGroupBy fieldOut structIn structOut : String)
       (isSlice isPointer isComposite : Option Bool)
       (group : NGCList)
       (matchCfg : List NestedMatchConfig)
/-- List of NestedGroupConfig (`[]*NestedGroupConfig` in the source). -/
inductive NGCList where
  | nil
  | cons (hd : NestedGroupConfig) (tl : NGCList)
end

def NestedGroupConfig.fieldGroupBy : NestedGroupConfig → String
  | .mk x _ _ _ _ _ _ _ _ => x

def NestedGroupConfig.fieldOut : NestedGroupConfig → String
  | .mk _ x _ _ _ _ _ _ _ => x

def NestedGroupConfig.structIn : NestedGroupConfig → String
  | .mk _ _ x _ _ _ _ _ _ => x

def NestedGroupConfig.structOut : NestedGroupConfig → String
  | .mk _ _ _ x _ _ _ _ _ => x

def NestedGroupConfig.isSlice : NestedGroupConfig → Option Bool
  | .mk _ _ _ _ x _ _ _ _ => x

def NestedGroupConfig.isPointer : NestedGroupConfig → Option Bool
  | .mk _ _ _ _ _ x _ _ _ => x

def NestedGroupConfig.isComposite : NestedGroupConfig → Option Bool
  | .mk _ _ _ _ _ _ x _ _ => x

def NestedGroupConfig.group : NestedGroupConfig → NGCList
  | .mk _ _ _ _ _ _ _ x _ => x

def NestedGroupConfig.matchCfg : NestedGroupConfig → List NestedMatchConfig
  | .mk _ _ _ _ _ _ _ _ x => x

def NGCList.toList : NGCList → List NestedGroupConfig
  | .nil => []
  | .cons h t => h :: NGCList.toList t

def NGCList.ofList : List NestedGroupConfig → NGCList
  | [] => .nil
  | h :: t => .cons h (NGCList.ofList t)

/-- GetIsSlice (internal/gen.go): `n.IsSlice == nil || *n.IsSlice`. -/
def NestedGroupConfig.GetIsSlice (c : NestedGroupConfig) : Bool :=
  match c.isSlice with
  | none => true
  | some b => b

/-- GetIsPointer (internal/gen.go): `n.IsPointer == nil || *n.IsPointer`. -/
def NestedGroupConfig.GetIsPointer (c : NestedGroupConfig) : Bool :=
  match c.isPointer with
  | none => true
  | some b => b

/-- GetIsComposite (internal/gen.go): `n.IsComposite == nil || *n.IsComposite`.
Note that an unset flag reads as `true` here. -/
def NestedGroupConfig.GetIsComposite (c : NestedGroupConfig) : Bool :=
  match c.isComposite with
  | none => true
  | some b => b

/-- NestedCompositeConfig from internal/gen.go (package opts). -/
structure NestedCompositeConfig where
  name : String
  structRootIn : String
  group : NGCList

/-- NestedQueryConfig from internal/gen.go (package opts). -/
structure NestedQueryConfig where
  query : String
  fieldGroupBy : String
  structRoot : String
  group : NGCList
  isComposite : Option Bool

/-- NestedConfig from internal/gen.go (package opts). -/
structure NestedConfig where
  composites : List NestedCompositeConfig
  queries : List NestedQueryConfig

/-! ## Configuration default population (src/unnamed/part_004) -/

/-- populateNestedConfigItemWithDefaultValues.  Defaults `struct_out`,
`composite` (to `false`), `field_group_by`, `slice`, `pointer` and the match
rules of one configuration node.  It does not recurse into `group`. -/
def populateNestedConfigItemWithDefaultValues : NestedGroupConfig → NestedGroupConfig
  | .mk fieldGroupBy fieldOut structIn structOut isSlice isPointer isComposite group matchCfg =>
    let structOut1 := if structOut = "" then structIn else structOut
    let isComposite1 : Option Bool := some (isComposite.getD false)
    let fieldGroupBy1 := if fieldGroupBy = "" then "ID" else fieldGroupBy
    let isSlice1 : Option Bool := some (isSlice.getD true)
    let isPointer1 : Option Bool := some (isPointer.getD true)
    let matchCfg1 := matchCfg.map (fun m =>
      { m with fromStruct := some (m.fromStruct.getD structIn),
               fromField := some (m.fromField.getD fieldGroupBy1),
               toField := some (m.toField.getD fieldGroupBy1) })
    .mk fieldGroupBy1 fieldOut structIn structOut1 isSlice1 isPointer1 isComposite1 group matchCfg1

/-- populateNestedConfigWithDefaultValues: applies the item population to the
top-level `group` entries of every nested query config and every composite
config.  Deeper nodes are not visited. -/
def populateNestedConfigWithDefaultValues (n : Option NestedConfig) : Option NestedConfig :=
  n.map (fun cfg =>
    { cfg with
      queries := cfg.queries.map (fun q =>
        { q with group := NGCList.ofList (q.group.toList.map populateNestedConfigItemWithDefaultValues) }),
      composites := cfg.composites.map (fun c =>
        { c with group := NGCList.ofList (c.group.toList.map populateNestedConfigItemWithDefaultValues) }) })

/-! ## Error values and result type -/

/-- RowGetterInterfaceMethod from internal/nested_validation.go. -/
structure RowGetterInterfaceMethod where
  methodName : String
  returnType : String
  structIn : String
deriving DecidableEq

/-- Structured model of the generator's `error` values.  Each constructor
records the data interpolated into the corresponding `fmt.Errorf` call. -/
inductive GoErr where
  | queryNotFound (q : String)
  | nilEntry (name : String)
  | registryMissing (name ctx : String)
  | compositeFieldsMissing (composite : String) (missing : List String)
      (entity : String) (available : List String) (contextType parentStruct : String)
  | interfaceIncompat (composite rootStruct parentStruct : String)
      (missing : List RowGetterInterfaceMethod)
  | wrap (ctx : String) (e : GoErr)
deriving DecidableEq

/-- Result of a generator computation: a value, a Go error (including the
model of a nil-pointer panic), or divergence (the fuel model of unbounded
recursion). -/
inductive Res (α : Type) where
  | ok (a : α)
  | fail (e : GoErr)
  | diverge
deriving DecidableEq

def Res.bind : Res α → (α → Res β) → Res β
  | .ok a, f => f a
  | .fail e, _ => .fail e
  | .diverge, _ => .diverge

/-! ## Composite struct registry (internal/nested_composites.go) -/

/-- CompositeStructData from internal/nested_composites.go.  The Go map
`NestedFieldToCompositeNameMap` is modelled as an association list in
insertion order. -/
structure CompositeStructData where
  config : NestedCompositeConfig
  directNestedFields : List String
  nestedFieldToCompositeNameMap : List (String × String)
  entityFieldsToExclude : List String
  isStructAlreadyGenerated : Bool

/-- The global `compositeStructRegistry` map, keyed by composite name. -/
abbrev Registry := List (String × CompositeStructData)

/-- Go map read `compositeStructRegistry[k]` (with the `exists` flag as
`Option`). -/
def lookupReg (reg : Registry) (k : String) : Option CompositeStructData :=
  (reg.find? (fun e => e.1 == k)).map (fun e => e.2)

/-- Go map write `compositeStructRegistry[k] = v`. -/
def setReg (reg : Registry) (k : String) (v : CompositeStructData) : Registry :=
  if reg.any (fun e => e.1 == k) then
    reg.map (fun e => if e.1 == k then (k, v) else e)
  else reg ++ [(k, v)]

/-- The field write `registry[k].IsStructAlreadyGenerated = true` (only ever
executed when the entry exists). -/
def markGenerated (reg : Registry) (k : String) : Registry :=
  reg.map (fun e =>
    if e.1 == k then (e.1, { e.2 with isStructAlreadyGenerated := true }) else e)

/-- The field write `compositeStruct.EntityFieldsToExclude = fields` of
registry pass 2. -/
def setExcluded (reg : Registry) (k : String) (fs : List String) : Registry :=
  reg.map (fun e =>
    if e.1 == k then (e.1, { e.2 with entityFieldsToExclude := fs }) else e)

/-- registerCompositeStructData from internal/nested_composites.go. -/
def registerCompositeStructData (reg : Registry) (config : NestedCompositeConfig)
    (nestedFields : List String) (m : List (String × String)) : Registry :=
  setReg reg config.name
    { config := config, directNestedFields := nestedFields,
      nestedFieldToCompositeNameMap := m,
      entityFieldsToExclude := [], isStructAlreadyGenerated := false }

/-- resolveAllTreeCompositeFields from internal/nested_composites.go.  The
source recurses through the registry with no cycle detection; the model makes
the recursion depth explicit with `fuel` and returns `diverge` when it is
exhausted.  The Go map iteration over `NestedFieldToCompositeNameMap` is
modelled in insertion order. -/
def resolveAllTreeCompositeFields (fuel : Nat) (reg : Registry) (compositeName : String) :
    Res (List String) :=
  match fuel with
  | 0 => .diverge
  | fuel + 1 =>
    match lookupReg reg compositeName with
    | none => .fail (.registryMissing compositeName "while checking direct nested fields")
    | some info =>
      info.nestedFieldToCompositeNameMap.foldl
        (fun acc p => acc.bind (fun l =>
          (resolveAllTreeCompositeFields fuel reg p.2).bind (fun fs => .ok (l ++ fs))))
        (.ok info.directNestedFields)

/-- Pass 1 of buildCompositeStructRegistry: register every composite with its
direct nested field names and its direct composite references (children whose
`IsComposite` pointer is non-nil and true). -/
def buildCompositeStructRegistryPass1 (reg : Registry)
    (composites : List NestedCompositeConfig) : Registry :=
  composites.foldl (fun reg comp =>
    let nestedFields := comp.group.toList.map (fun ch => ch.structIn)
    let m := comp.group.toList.filterMap (fun ch =>
      if ch.isComposite == some true then some (ch.structIn, ch.structOut) else none)
    registerCompositeStructData reg comp nestedFields m) reg

/-- Pass 2 of buildCompositeStructRegistry: resolve each composite's
transitive excluded-field set and store it on the registry entry. -/
def buildCompositeStructRegistryPass2 (fuel : Nat) (reg : Registry)
    (composites : List NestedCompositeConfig) : Res Registry :=
  composites.foldl (fun racc comp => racc.bind (fun reg =>
    (resolveAllTreeCompositeFields fuel reg comp.name).bind (fun fields =>
      match lookupReg reg comp.name with
      | none => .fail (.registryMissing comp.name "when resolving entity fields to exclude")
      | some _ => .ok (setExcluded reg comp.name fields)))) (.ok reg)

/-- buildCompositeStructRegistry from internal/nested_composites.go: when any
composites are configured, run pass 1 then pass 2 over the (process-global)
registry. -/
def buildCompositeStructRegistry (fuel : Nat) (composites : List NestedCompositeConfig)
    (reg : Registry) : Res Registry :=
  if composites.isEmpty then .ok reg
  else buildCompositeStructRegistryPass2 fuel (buildCompositeStructRegistryPass1 reg composites) composites

/-- getNestedFields from internal/nested_composites.go: collect the field
names a parent struct must exclude, from a list of child configurations.  A
composite child (non-nil, true `IsComposite`) that is registered and has
direct nested fields contributes the registered transitive excluded-field
set; any other child contributes its own `StructIn` plus, recursively, the
fields of its subtree. -/
def getNestedFields (reg : Registry) : NGCList → List String
  | .nil => []
  | .cons (.mk _ _ structIn structOut _ _ isComposite group _) rest =>
    (if isComposite == some true then
      match lookupReg reg structOut with
      | some compositeData =>
        if compositeData.directNestedFields.isEmpty then [] else compositeData.entityFieldsToExclude
      | none => []
    else
      structIn :: (if group.toList.isEmpty then [] else getNestedFields reg group))
    ++ getNestedFields reg rest

/-! ## Catalog types (row/entity record shapes) -/

/-- Field, as used by the nesting builder (name, row path, type, tags). -/
structure Field where
  name : String
  dbName : String
  typ : String
  tags : List (String × String)
deriving DecidableEq

/-- Struct: a named record shape from the catalog. -/
structure Struct where
  name : String
  fields : List Field
deriving DecidableEq

/-- Query, restricted to the fields the nesting builder reads: `MethodName`,
`SourceName` and `Ret.Struct` (the result-row struct, absent for queries that
return no rows). -/
structure Query where
  methodName : String
  sourceName : String
  ret : Option Struct
deriving DecidableEq

/-! ## Result tree (NestedStructData, internal/nested.go) -/

/-- The scalar fields of NestedStructData.  `DuplicatedRelativeToParents`
(a Go `map[int]bool`) is an association list from ancestor level to flag. -/
structure NestedStructDataInfo where
  structIn : String
  structOut : String
  fieldGroupBy : String
  fieldName : String
  fieldType : String
  rowFieldName : String
  rowFieldType : String
  isRowFieldExistsInQuery : Bool
  fieldTags : List (String × String)
  keyType : String
  isSlice : Bool
  isPointer : Bool
  isComposite : Bool
  isEntityStruct : Bool
  isRoot : Bool
  matchCfg : List NestedMatchConfig
  duplicatedRelativeToParents : List (Nat × Bool)
  fields : List Field
  skipStructGeneration : Bool
deriving DecidableEq

mutual
/-- NestedStructData from internal/nested.go: one resolved node of a nesting
tree; recursive through its `NestedStructs` children list. -/
inductive NestedStructData where
  | mk (info : NestedStructDataInfo) (children : NSDList)
/-- List of NestedStructData (`[]*NestedStructData` in the source). -/
inductive NSDList where
  | nil
  | cons (hd : NestedStructData) (tl : NSDList)
end

def NestedStructData.info : NestedStructData → NestedStructDataInfo
  | .mk i _ => i

def NestedStructData.children : NestedStructData → NSDList
  | .mk _ c => c

def NSDList.toList : NSDList → List NestedStructData
  | .nil => []
  | .cons h t => h :: NSDList.toList t

def NSDList.ofList : List NestedStructData → NSDList
  | [] => .nil
  | h :: t => .cons h (NSDList.ofList t)

def NSDList.isNil : NSDList → Bool
  | .nil => true
  | .cons _ _ => false

/-- Placeholder node for total list indexing (never actually selected: the
ancestor index is always in range). -/
def emptyNSDInfo : NestedStructDataInfo :=
  { structIn := "", structOut := "", fieldGroupBy := "", fieldName := "",
    fieldType := "", rowFieldName := "", rowFieldType := "",
    isRowFieldExistsInQuery := false, fieldTags := [], keyType := "",
    isSlice := false, isPointer := false, isComposite := false,
    isEntityStruct := false, isRoot := false, matchCfg := [],
    duplicatedRelativeToParents := [], fields := [], skipStructGeneration := false }

def dummyNSD : NestedStructData := .mk emptyNSDInfo .nil

/-! ## Build environment -/

/-- NestedQueryTemplateData from internal/nested.go (template-facing fields
that the builder fills in). -/
structure NestedQueryTemplateData where
  functionName : String
  query : Query
  rootStructName : String
  rootStructData : Option NestedStructData
  emitPointers : Bool
  emitJsonTags : Bool
  castToQueryName : String

/-- The `Nested` source-file grouping from internal/gen.go: the configs of
one query source file, together with the template data filled in by
`populateNestedDataItems`. -/
structure Nested where
  sourceFileName : String
  configs : List NestedQueryConfig
  nestedDataItems : List NestedQueryTemplateData

/-- Go map write `generatedStructRoots[k] = v` (string-keyed association
list). -/
def setAssocStr (m : List (String × String)) (k v : String) : List (String × String) :=
  if m.any (fun e => e.1 == k) then
    m.map (fun e => if e.1 == k then (e.1, v) else e)
  else m ++ [(k, v)]

/-- The generator options the nesting builder reads. -/
structure Options where
  emitJsonTags : Bool
  emitResultStructPointers : Bool
  outputModelsPackage : String
  nested : Option NestedConfig

/-- The receiver state of NestedQueryTemplateDataBuilder together with the
pure helper functions the builder calls but whose definitions live outside
the verified core: `PluralizeCasePreserving` / `SingularizeCasePreserving`
delegate to the external flect library, and `JSONTagName` is defined outside
the provided sources.  No verified claim depends on their outputs, so they
are parameters of the model. -/
structure BuildEnv where
  options : Options
  queries : List Query
  structs : List Struct
  nested : List Nested
  pluralizeCasePreserving : String → String
  singularizeCasePreserving : String → String
  jsonTagName : String → String

/-! ## Builder helpers (internal/nested.go) -/

def getQueryByName (env : BuildEnv) (queryName : String) : Option Query :=
  env.queries.find? (fun q => q.methodName == queryName)

/-- isRowFieldExistsInQuery from internal/nested.go.  (The source
dereferences `query.Ret.Struct` unconditionally and would panic on a query
without a result struct; the model treats such a query as having no
fields.) -/
def isRowFieldExistsInQuery (env : BuildEnv) (queryName : String)
    (config : NestedGroupConfig) : Bool :=
  env.queries.any (fun q => q.methodName == queryName &&
    (match q.ret with
     | some st => st.fields.any (fun f => f.name == config.structIn)
     | none => false))

def structExistsInSchema (env : BuildEnv) (structName : String) : Bool :=
  env.structs.any (fun s => s.name == structName)

/-- shouldReuseEntityStruct from internal/nested.go.  Note: this reads the
raw `IsComposite` pointer (`!= nil && *...`), not the accessor. -/
def shouldReuseEntityStruct (env : BuildEnv) (structOut structIn : String)
    (config : NestedGroupConfig) : Bool :=
  if config.isComposite == some true then false
  else if !(structExistsInSchema env structIn) then false
  else if !(config.group.toList.isEmpty) then false
  else true

/-- extractFields from internal/nested.go: keep every field whose name is not
excluded, rebasing its row path under the given row-field path root. -/
def extractFields (allFields : List Field) (fieldsToExclued : List String)
    (rowFieldRoot : String) : List Field :=
  allFields.filterMap (fun f =>
    if fieldsToExclued.contains f.name then none
    else some { name := f.name,
                dbName := if rowFieldRoot = "" then f.name else rowFieldRoot ++ "." ++ f.name,
                typ := f.typ, tags := f.tags })

def getNonNestedStructFields (reg : Registry) (fields : List Field)
    (groupConfig : NGCList) : List Field :=
  extractFields fields (getNestedFields reg groupConfig) ""

/-- determineKeyType from internal/nested.go: always `pgtype.UUID`. -/
def determineKeyType (field : String) : String :=
  "pgtype.UUID"

/-- getFieldNameFromNestedConfig from internal/nested.go. -/
def getFieldNameFromNestedConfig (env : BuildEnv) (nested : NestedGroupConfig) : String :=
  if nested.fieldOut ≠ "" then nested.fieldOut
  else if nested.isSlice == none || nested.isSlice == some true then
    env.pluralizeCasePreserving nested.structIn
  else env.singularizeCasePreserving nested.structIn

/-- getFieldType from internal/nested.go. -/
def getFieldType (env : BuildEnv) (structIn structOut : String)
    (isSlice isPointer isEntityStruct : Bool)
    (nestedConfig : Option NestedGroupConfig) : String :=
  let useEntityPkg := isEntityStruct ||
    (match nestedConfig with
     | some cfg => shouldReuseEntityStruct env structOut structIn cfg
     | none => false)
  let structType := if useEntityPkg then "entity." ++ structIn else structOut
  if isSlice then
    if isPointer then "[]*" ++ structType else "[]" ++ structType
  else
    if isPointer then "*" ++ structType else structType

/-- IsCompositeStructAlreadyGenerated from internal/nested.go.  For a
composite config it dereferences the registry entry; a missing entry is the
modelled nil-pointer panic. -/
def IsCompositeStructAlreadyGenerated (reg : Registry) (config : NestedGroupConfig) : Res Bool :=
  if config.GetIsComposite then
    match lookupReg reg config.structOut with
    | none => .fail (.nilEntry config.structOut)
    | some e => .ok e.isStructAlreadyGenerated
  else .ok false

/-- IsCompositeStructWillBeGeneratedInAnotherFile from internal/nested.go:
some nesting config anywhere in the run declares this composite's output
type as its `struct_root`. -/
def IsCompositeStructWillBeGeneratedInAnotherFile (env : BuildEnv)
    (config : NestedGroupConfig) : Bool :=
  env.nested.any (fun item => item.configs.any (fun nc =>
    nc.structRoot == config.structOut && config.GetIsComposite))

/-! ## Structural validators (internal/nested_validation.go) -/

/-- Modelled from the spec: `getStructByName`, the catalog lookup by entity
name used by the Structural Validator (§4.4), is not among the provided
source files; it is modelled as first-match lookup of a struct by name. -/
def getStructByName (structs : List Struct) (name : String) : Option Struct :=
  structs.find? (fun s => s.name == name)

def fieldExistsInEntityFields (entityFields : List Field) (fieldName : String) : Bool :=
  entityFields.any (fun f => f.name == fieldName)

/-- formatAvailableFields renders the entity's field names for the error
message; the model keeps the list of names. -/
def formatAvailableFields (fields : List Field) : List String :=
  fields.map (fun f => f.name)

/-- validateCompositeFieldsAgainstEntity from internal/nested_validation.go.
A missing entity struct skips the check; otherwise every composite field
must exist on the entity, and a violation reports the composite name, the
missing field names, the entity name and the entity's available fields. -/
def validateCompositeFieldsAgainstEntity (structs : List Struct)
    (compositeStructName : String) (compositeFields : List Field)
    (entityStructName parentStructName contextType : String) : Except GoErr Unit :=
  match getStructByName structs entityStructName with
  | none => .ok ()
  | some entityStruct =>
    let missingFields := compositeFields.filterMap (fun f =>
      if fieldExistsInEntityFields entityStruct.fields f.name then none else some f.name)
    if missingFields.isEmpty then .ok ()
    else .error (.compositeFieldsMissing compositeStructName missingFields entityStructName
      (formatAvailableFields entityStruct.fields) contextType parentStructName)

/-- validateCompositeFieldsExistInEntity from internal/nested_validation.go:
walk the forest; every composite node whose row field exists in the query is
checked against its bound entity; recurse into children. -/
def validateCompositeFieldsExistInEntity (nestedStructs : NSDList) (query : Query)
    (structs : List Struct) (parentStructName : String) : Except GoErr Unit :=
  match nestedStructs with
  | .nil => .ok ()
  | .cons (.mk info cc) rest =>
    (if info.isComposite && info.isRowFieldExistsInQuery then
       validateCompositeFieldsAgainstEntity structs info.structOut info.fields
         info.structIn parentStructName "nested"
     else Except.ok ()).bind (fun _ =>
    (if cc.isNil then Except.ok ()
     else validateCompositeFieldsExistInEntity cc query structs parentStructName).bind (fun _ =>
    validateCompositeFieldsExistInEntity rest query structs parentStructName))

/-- validateExtractedFields from internal/nested_validation.go: if the root
output type itself is a registered composite, check its fields against the
composite's root entity; then check all nested composite nodes. -/
def validateExtractedFields (reg : Registry) (fields : List Field)
    (nestedStructs : NSDList) (query : Query) (structs : List Struct)
    (structOut : String) : Except GoErr Unit :=
  (match lookupReg reg structOut with
   | some compositeData =>
     validateCompositeFieldsAgainstEntity structs structOut fields
       compositeData.config.structRootIn structOut "root"
   | none => Except.ok ()).bind (fun _ =>
  match validateCompositeFieldsExistInEntity nestedStructs query structs structOut with
  | .error e => .error (.wrap ("validation failed for struct " ++ structOut) e)
  | .ok _ => .ok ())

/-- collectMethodsRecursive from internal/nested_validation.go, over a
children list; the accumulator carries the method list and the `seen` set. -/
def collectMethodsRecursive (acc : List RowGetterInterfaceMethod × List String)
    (isCollectingAvailableMethods : Bool) : NSDList → List RowGetterInterfaceMethod × List String
  | .nil => acc
  | .cons (.mk info cc) rest =>
    let shouldIncludeMethod :=
      if isCollectingAvailableMethods then info.isRowFieldExistsInQuery else true
    let methodName := "Get" ++ info.structIn
    let acc1 :=
      if shouldIncludeMethod && !(acc.2.contains methodName) then
        (acc.1 ++ [{ methodName := methodName, returnType := info.rowFieldType,
                     structIn := info.structIn }], acc.2 ++ [methodName])
      else acc
    let acc2 := if cc.isNil then acc1 else collectMethodsRecursive acc1 isCollectingAvailableMethods cc
    collectMethodsRecursive acc2 isCollectingAvailableMethods rest

/-- collectRequiredMethods: only methods the query's row actually has. -/
def collectRequiredMethods (structData : NestedStructData) : List RowGetterInterfaceMethod :=
  (collectMethodsRecursive ([], []) true structData.children).1

/-- collectCompositeRequiredMethods: everything the composite needs. -/
def collectCompositeRequiredMethods (structData : NestedStructData) : List RowGetterInterfaceMethod :=
  (collectMethodsRecursive ([], []) false structData.children).1

/-- findMissingMethods from internal/nested_validation.go. -/
def findMissingMethods (available required : List RowGetterInterfaceMethod) :
    List RowGetterInterfaceMethod :=
  required.filter (fun m => !(available.any (fun a => a.methodName == m.methodName)))

/-- validateNestedCompositeInterfaces from internal/nested_validation.go,
over the children of a parent node (whose output name is `parentOut`).
Composite children are checked against the parent's available methods and
recursed into; children with children are recursed into as well. -/
def validateNestedCompositeInterfaces (parentOut : String)
    (parentMethods : List RowGetterInterfaceMethod) (rootStructName : String) :
    NSDList → Except GoErr Unit
  | .nil => .ok ()
  | .cons (.mk info cc) rest =>
    (if info.isComposite then
       let nestedMethods := (collectMethodsRecursive ([], []) false cc).1
       let missingMethods := findMissingMethods parentMethods nestedMethods
       if !missingMethods.isEmpty then
         Except.error (.interfaceIncompat info.structOut rootStructName parentOut missingMethods)
       else validateNestedCompositeInterfaces info.structOut parentMethods rootStructName cc
     else Except.ok ()).bind (fun _ =>
    (if cc.isNil then Except.ok ()
     else validateNestedCompositeInterfaces info.structOut parentMethods rootStructName cc).bind (fun _ =>
    validateNestedCompositeInterfaces parentOut parentMethods rootStructName rest))

/-- validateNestedInterfaceCompatibility from internal/nested_validation.go.
(The call to it in buildNestedData, internal/nested.go lines 217-220, is
commented out in the source.) -/
def validateNestedInterfaceCompatibility (rootStruct : NestedStructData)
    (rootStructName : String) : Except GoErr Unit :=
  let rootMethods := collectRequiredMethods rootStruct
  validateNestedCompositeInterfaces rootStruct.info.structOut rootMethods rootStructName
    rootStruct.children

/-! ## Duplicate-level detection (internal/nested.go) -/

/-- The `map[string][]*NestedStructData` grouping of descendants by their
`StructOut`.  Modelled as its lookup function (only lookups are performed on
it); a key that was never appended maps to `[]`, and the Go `exists` flag
coincides with the group being non-empty. -/
def SOMap : Type := String → List NestedStructData

def emptySOMap : SOMap := fun _ => []

/-- The Go write `structOutMap[k] = append(structOutMap[k], v)`. -/
def appendSOMap (m : SOMap) (k : String) (v : NestedStructData) : SOMap :=
  fun k' => if k' = k then m k' ++ [v] else m k'

/-- collectAllNestedStructsByStructOut from internal/nested.go, over a
children list: add every descendant to the map keyed by its `StructOut`. -/
def collectSO (m : SOMap) : NSDList → SOMap
  | .nil => m
  | .cons (.mk info cc) rest =>
    let m1 := appendSOMap m info.structOut (NestedStructData.mk info cc)
    let m2 := collectSO m1 cc
    collectSO m2 rest

/-- collectAllNestedStructsByStructOut applied to a node (collects its
strict descendants). -/
def collectAllNestedStructsByStructOut (data : NestedStructData) (m : SOMap) : SOMap :=
  collectSO m data.children

/-- Whether `out` appears more than once among the strict descendants of
`ancestorNode` (`structOutExists && len(structOutStructs) > 1`; under the
lookup-function model the `exists` flag is subsumed by the length test). -/
def dupFlagAt (ancestorNode : NestedStructData) (out : String) : Bool :=
  decide (((collectAllNestedStructsByStructOut ancestorNode emptySOMap) out).length > 1)

/-- The map write `DuplicatedRelativeToParents[level] = v` (replace the
binding when the level is already present, append it otherwise). -/
def setDupLevel : List (Nat × Bool) → Nat → Bool → List (Nat × Bool)
  | [], level, v => [(level, v)]
  | e :: rest, level, v =>
    if e.1 == level then (e.1, v) :: rest else e :: setDupLevel rest level v

/-- The per-child level loop of updateDuplicatesFromNodePerspective: for each
ancestor level 1..len, look up the ancestor (level 1 = last of `childAnc`)
and record whether the child's `StructOut` is duplicated in that ancestor's
subtree. -/
def computeDupFlags (childOut : String) (dup0 : List (Nat × Bool))
    (childAnc : List NestedStructData) : List (Nat × Bool) :=
  (List.range childAnc.length).foldl (fun dup i =>
    let level := i + 1
    let ancestorNode := childAnc.getD (childAnc.length - level) dummyNSD
    setDupLevel dup level (dupFlagAt ancestorNode childOut)) dup0

mutual
/-- updateDuplicatesFromNodePerspective from internal/nested.go, as a
function from the old tree to the flag-updated tree.  The ancestor chain
passed down holds the original nodes; the Go code passes the in-place
updated objects, but only their `StructOut` and children — which the update
never changes — are ever read from the chain. -/
def updateDuplicatesFromNodePerspective : NestedStructData → List NestedStructData → NestedStructData
  | .mk info cs, ancestors =>
    .mk info (updateDupChildren cs (ancestors ++ [NestedStructData.mk info cs]))
/-- The per-children traversal of updateDuplicatesFromNodePerspective. -/
def updateDupChildren : NSDList → List NestedStructData → NSDList
  | .nil, _ => .nil
  | .cons (.mk ci cc) rest, childAnc =>
    let flags := computeDupFlags ci.structOut ci.duplicatedRelativeToParents childAnc
    let ci1 := { ci with duplicatedRelativeToParents := flags }
    .cons (NestedStructData.mk ci1 (updateDupChildren cc (childAnc ++ [NestedStructData.mk ci cc])))
      (updateDupChildren rest childAnc)
end

/-! ## The nesting-tree builder (internal/nested.go) -/

mutual
/-- buildNestedStructData from internal/nested.go.  The registry is threaded
as state; `parentSkip` is `none` for the root call and otherwise carries the
parent's `SkipStructGeneration` (the only parent field the source reads).
Fuel models the unbounded recursion that composite references allow. -/
def buildNestedStructData (fuel : Nat) (env : BuildEnv) (queryName : String)
    (config : NestedGroupConfig) (parentSkip : Option Bool)
    (structFields : List Field) (reg : Registry) :
    Res (NestedStructData × Registry) :=
  match fuel with
  | 0 => .diverge
  | fuel + 1 =>
    match getQueryByName env queryName with
    | none => .fail (.queryNotFound queryName)
    | some query =>
      let fields := getNonNestedStructFields reg structFields (NGCList.cons config .nil)
      (if config.GetIsComposite then
         match lookupReg reg config.structOut with
         | none => Res.fail (.nilEntry config.structOut)
         | some compositeData => Res.ok (compositeData.config.group, compositeData.config.structRootIn)
       else Res.ok (config.group, config.structIn)).bind (fun redirected =>
      let nestedConfigs := redirected.1
      let structInName := redirected.2
      let isEntity := shouldReuseEntityStruct env config.structOut config.structIn config
      let fieldName := getFieldNameFromNestedConfig env config
      let fieldType := getFieldType env config.structIn config.structOut
        config.GetIsSlice config.GetIsPointer isEntity (some config)
      let isRootConfig := parentSkip.isNone
      (IsCompositeStructAlreadyGenerated reg config).bind (fun isAlreadyGenerated =>
      let willBeGeneratedInAnotherFile := IsCompositeStructWillBeGeneratedInAnotherFile env config
      let skipStructGeneration := !isRootConfig &&
        (isAlreadyGenerated || willBeGeneratedInAnotherFile || parentSkip.getD false)
      (if isRootConfig || (!willBeGeneratedInAnotherFile &&
            (lookupReg reg config.structOut).isSome && !(parentSkip.getD false)) then
         match lookupReg reg config.structOut with
         | some _ => Res.ok (markGenerated reg config.structOut)
         | none => Res.fail (.nilEntry config.structOut)
       else Res.ok reg).bind (fun reg1 =>
      let info : NestedStructDataInfo :=
        { structIn := structInName, structOut := config.structOut,
          fieldGroupBy := config.fieldGroupBy,
          isSlice := config.GetIsSlice, isPointer := config.GetIsPointer,
          keyType := determineKeyType config.fieldGroupBy,
          fieldName := fieldName, fieldType := fieldType,
          rowFieldName := config.structIn,
          rowFieldType := env.options.outputModelsPackage ++ "." ++ config.structIn,
          fieldTags := [("json", env.jsonTagName fieldName)],
          fields := fields, isEntityStruct := isEntity,
          isComposite := config.GetIsComposite,
          isRowFieldExistsInQuery := isRowFieldExistsInQuery env queryName config,
          skipStructGeneration := skipStructGeneration, isRoot := isRootConfig,
          matchCfg := config.matchCfg,
          duplicatedRelativeToParents := [] }
      (buildNestedStructsList fuel env queryName skipStructGeneration nestedConfigs reg1).bind (fun built =>
      let result := NestedStructData.mk info (NSDList.ofList built.1)
      (if isRootConfig then
         match validateExtractedFields built.2 fields (NSDList.ofList built.1) query
             env.structs config.structOut with
         | .error e => Res.fail (.wrap ("validation failed for query " ++ queryName) e)
         | .ok _ => Res.ok ()
       else Res.ok ()).bind (fun _ =>
      Res.ok (updateDuplicatesFromNodePerspective result [], built.2))))))

/-- buildNestedStructsList from internal/nested.go: build one child per
configuration, looking up the child's input struct fields in the catalog,
threading the registry left to right. -/
def buildNestedStructsList (fuel : Nat) (env : BuildEnv) (queryName : String)
    (parentSkip : Bool) (group : NGCList) (reg : Registry) :
    Res (List NestedStructData × Registry) :=
  match fuel with
  | 0 => .diverge
  | fuel + 1 =>
    match group with
    | .nil => .ok ([], reg)
    | .cons nestedCfg rest =>
      let structFields :=
        ((env.structs.find? (fun s => s.name == nestedCfg.structIn)).map (fun s => s.fields)).getD []
      (buildNestedStructData fuel env queryName nestedCfg (some parentSkip) structFields reg).bind
        (fun built =>
      (buildNestedStructsList fuel env queryName parentSkip rest built.2).bind (fun rest1 =>
      .ok (built.1 :: rest1.1, rest1.2)))
end

/-- buildNestedData from internal/nested.go: build the whole tree for one
query's nesting configuration.  The interface-compatibility validation call
(source lines 217-220) is commented out in the source and therefore absent
here. -/
def buildNestedData (fuel : Nat) (env : BuildEnv) (query : Query)
    (config : NestedQueryConfig) (reg : Registry) :
    Res (NestedQueryTemplateData × Registry) :=
  let queryName := if query.methodName ≠ "" then query.methodName else query.sourceName
  let rootStruct := if config.structRoot = "" then queryName ++ "Group" else config.structRoot
  let functionName := "Group" ++ queryName
  let rootField := if config.fieldGroupBy = "" then "ID" else config.fieldGroupBy
  let structFields := (query.ret.map (fun s => s.fields)).getD []
  (buildNestedStructData fuel env query.methodName
    (NestedGroupConfig.mk rootField "" rootStruct rootStruct none none config.isComposite config.group [])
    none structFields reg).bind (fun built =>
  .ok ({ functionName := functionName, query := query,
         rootStructName := config.structRoot,
         rootStructData := some built.1,
         emitJsonTags := env.options.emitJsonTags,
         emitPointers := env.options.emitResultStructPointers,
         castToQueryName := "" }, built.2))

/-- buildNestedWrapperData from internal/nested.go. -/
def buildNestedWrapperData (env : BuildEnv) (query : Query)
    (config : NestedQueryConfig) (firstQueryName : String) : NestedQueryTemplateData :=
  { functionName := "Group" ++ query.methodName, query := query,
    rootStructName := config.structRoot, rootStructData := none,
    emitJsonTags := env.options.emitJsonTags,
    emitPointers := env.options.emitResultStructPointers,
    castToQueryName := firstQueryName }

/-- The loop body of buildNestedDataItems, with the `generatedStructRoots`
map (struct_root to first generating query) threaded explicitly.  A config
whose query is not in the catalog is skipped with a warning; a struct_root
already generated by a *different* query yields a wrapper; otherwise the
full tree is built and the struct_root is recorded. -/
def buildNestedDataItemsFrom (fuel : Nat) (env : BuildEnv)
    (queryConfigs : List NestedQueryConfig) (generatedStructRoots : List (String × String))
    (reg : Registry) : Res (List NestedQueryTemplateData × Registry) :=
  match queryConfigs with
  | [] => .ok ([], reg)
  | config :: rest =>
    match env.queries.find? (fun q => q.methodName == config.query || q.sourceName == config.query) with
    | none => buildNestedDataItemsFrom fuel env rest generatedStructRoots reg
    | some targetQuery =>
      let structRoot := if config.structRoot = "" then config.query ++ "Group" else config.structRoot
      let firstQuery := (generatedStructRoots.find? (fun e => e.1 == structRoot)).map (fun e => e.2)
      if (match firstQuery with
          | some fq => fq != config.query
          | none => false) then
        (buildNestedDataItemsFrom fuel env rest generatedStructRoots reg).bind (fun rest1 =>
        .ok (buildNestedWrapperData env targetQuery config (firstQuery.getD "") :: rest1.1, rest1.2))
      else
        match buildNestedData fuel env targetQuery config reg with
        | .fail e => .fail (.wrap ("failed to generate nested function for query " ++ config.query) e)
        | .diverge => .diverge
        | .ok built =>
          (buildNestedDataItemsFrom fuel env rest
            (setAssocStr generatedStructRoots structRoot config.query) built.2).bind (fun rest1 =>
          .ok (built.1 :: rest1.1, rest1.2))

/-- buildNestedDataItems from internal/nested.go: the `generatedStructRoots`
map starts empty for every call (one call per source file). -/
def buildNestedDataItems (fuel : Nat) (env : BuildEnv)
    (queryConfigs : List NestedQueryConfig) (reg : Registry) :
    Res (List NestedQueryTemplateData × Registry) :=
  buildNestedDataItemsFrom fuel env queryConfigs [] reg

/-- The per-file loop of populateNestedDataItems. -/
def populateNestedLoop (fuel : Nat) (env : BuildEnv) :
    List Nested → Registry → Res (List Nested × Registry)
  | [], reg => .ok ([], reg)
  | item :: rest, reg =>
    (buildNestedDataItems fuel env item.configs reg).bind (fun built =>
    (populateNestedLoop fuel env rest built.2).bind (fun rest1 =>
    .ok ({ item with nestedDataItems := built.1 } :: rest1.1, rest1.2)))

/-- populateNestedDataItems from internal/nested.go: build the composite
registry, then fill in every source file's nested template data, all against
the same (process-global) registry. -/
def populateNestedDataItems (fuel : Nat) (env : BuildEnv) (reg0 : Registry) :
    Res (List Nested × Registry) :=
  (buildCompositeStructRegistry fuel (((env.options.nested).map (fun n => n.composites)).getD []) reg0).bind
    (fun reg1 => populateNestedLoop fuel env env.nested reg1)

/-! ## Derived observations on result trees -/

mutual
/-- Every node of a tree (the node itself and all descendants). -/
def NestedStructData.allNodes : NestedStructData → List NestedStructData
  | .mk info cs => .mk info cs :: NSDList.allNodes cs
/-- Every node of a forest. -/
def NSDList.allNodes : NSDList → List NestedStructData
  | .nil => []
  | .cons h t => h.allNodes ++ NSDList.allNodes t
end

mutual
/-- All (parent info, child info) pairs of a tree. -/
def NestedStructData.pcPairs : NestedStructData → List (NestedStructDataInfo × NestedStructDataInfo)
  | .mk info cs => (NSDList.toList cs).map (fun c => (info, c.info)) ++ NSDList.pcPairs cs
/-- All (parent info, child info) pairs below a forest. -/
def NSDList.pcPairs : NSDList → List (NestedStructDataInfo × NestedStructDataInfo)
  | .nil => []
  | .cons h t => h.pcPairs ++ NSDList.pcPairs t
end

/-- A node's info with the duplicate-level map erased; the duplicate-flag
update changes nothing else. -/
def infoNoDup (i : NestedStructDataInfo) : NestedStructDataInfo :=
  { i with duplicatedRelativeToParents := [] }

theorem info_mk (i : NestedStructDataInfo) (c : NSDList) :
    (NestedStructData.mk i c).info = i := rfl

theorem infoNoDup_setDup (i : NestedStructDataInfo) (x : List (Nat × Bool)) :
    infoNoDup { i with duplicatedRelativeToParents := x } = infoNoDup i := rfl

theorem allNodes_mk (i : NestedStructDataInfo) (c : NSDList) :
    (NestedStructData.mk i c).allNodes = NestedStructData.mk i c :: c.allNodes := rfl

theorem allNodesL_nil : NSDList.allNodes .nil = [] := rfl

theorem allNodesL_cons (h : NestedStructData) (t : NSDList) :
    NSDList.allNodes (.cons h t) = h.allNodes ++ t.allNodes := rfl

theorem updateDup_mk (i : NestedStructDataInfo) (cs : NSDList) (anc : List NestedStructData) :
    updateDuplicatesFromNodePerspective (.mk i cs) anc =
      .mk i (updateDupChildren cs (anc ++ [NestedStructData.mk i cs])) := rfl

theorem updateDupChildren_cons (ci : NestedStructDataInfo) (cc : NSDList) (rest : NSDList)
    (childAnc : List NestedStructData) :
    updateDupChildren (.cons (.mk ci cc) rest) childAnc =
      .cons (NestedStructData.mk
          { ci with duplicatedRelativeToParents :=
              computeDupFlags ci.structOut ci.duplicatedRelativeToParents childAnc }
          (updateDupChildren cc (childAnc ++ [NestedStructData.mk ci cc])))
        (updateDupChildren rest childAnc) := rfl

mutual
theorem updateDup_allNodes_infoNoDup (t : NestedStructData) (anc : List NestedStructData) :
    ((updateDuplicatesFromNodePerspective t anc).allNodes.map (fun n => infoNoDup n.info)) =
      t.allNodes.map (fun n => infoNoDup n.info) := by
  cases t with
  | mk info cs =>
    rw [updateDup_mk, allNodes_mk, allNodes_mk, List.map_cons, List.map_cons,
      updateDupChildren_allNodes_infoNoDup cs]
    rfl
theorem updateDupChildren_allNodes_infoNoDup (l : NSDList) (anc : List NestedStructData) :
    ((updateDupChildren l anc).allNodes.map (fun n => infoNoDup n.info)) =
      l.allNodes.map (fun n => infoNoDup n.info) := by
  cases l with
  | nil => rfl
  | cons h t =>
    cases h with
    | mk ci cc =>
      rw [updateDupChildren_cons, allNodesL_cons, allNodesL_cons, allNodes_mk, allNodes_mk]
      simp only [List.map_append, List.map_cons]
      rw [updateDupChildren_allNodes_infoNoDup cc, updateDupChildren_allNodes_infoNoDup t]
      rfl
end

theorem toList_nil : NSDList.toList .nil = [] := rfl

theorem toList_cons (h : NestedStructData) (t : NSDList) :
    NSDList.toList (.cons h t) = h :: t.toList := rfl

theorem pcPairs_mk (i : NestedStructDataInfo) (c : NSDList) :
    (NestedStructData.mk i c).pcPairs =
      (c.toList.map (fun x => (i, x.info))) ++ c.pcPairs := rfl

theorem pcPairsL_nil : NSDList.pcPairs .nil = [] := rfl

theorem pcPairsL_cons (h : NestedStructData) (t : NSDList) :
    NSDList.pcPairs (.cons h t) = h.pcPairs ++ t.pcPairs := rfl

theorem updateDupChildren_toList_infoNoDup :
    ∀ (l : NSDList) (anc : List NestedStructData),
    ((updateDupChildren l anc).toList.map (fun n => infoNoDup n.info)) =
      l.toList.map (fun n => infoNoDup n.info)
  | .nil, _ => rfl
  | .cons (.mk ci cc) t, anc => by
    rw [updateDupChildren_cons, toList_cons, toList_cons, List.map_cons, List.map_cons,
      updateDupChildren_toList_infoNoDup t anc]
    rfl

theorem updateDupChildren_toList_pair (j : NestedStructDataInfo) (l : NSDList)
    (anc : List NestedStructData) :
    ((updateDupChildren l anc).toList.map (fun x => (infoNoDup j, infoNoDup x.info))) =
      l.toList.map (fun x => (infoNoDup j, infoNoDup x.info)) := by
  have h := congrArg (List.map (fun v => (infoNoDup j, v)))
    (updateDupChildren_toList_infoNoDup l anc)
  simpa [List.map_map, Function.comp_def] using h

mutual
theorem updateDup_pcPairs_infoNoDup (t : NestedStructData) (anc : List NestedStructData) :
    ((updateDuplicatesFromNodePerspective t anc).pcPairs.map
        (fun p => (infoNoDup p.1, infoNoDup p.2))) =
      t.pcPairs.map (fun p => (infoNoDup p.1, infoNoDup p.2)) := by
  cases t with
  | mk info cs =>
    rw [updateDup_mk, pcPairs_mk, pcPairs_mk]
    simp only [List.map_append, List.map_map, Function.comp_def, info_mk]
    rw [updateDupChildren_pcPairs_infoNoDup cs, updateDupChildren_toList_pair info cs]
theorem updateDupChildren_pcPairs_infoNoDup (l : NSDList) (anc : List NestedStructData) :
    ((updateDupChildren l anc).pcPairs.map
        (fun p => (infoNoDup p.1, infoNoDup p.2))) =
      l.pcPairs.map (fun p => (infoNoDup p.1, infoNoDup p.2)) := by
  cases l with
  | nil => rfl
  | cons h t =>
    cases h with
    | mk ci cc =>
      rw [updateDupChildren_cons, pcPairsL_cons, pcPairsL_cons, pcPairs_mk, pcPairs_mk]
      simp only [List.map_append, List.map_map, Function.comp_def, info_mk, infoNoDup_setDup]
      rw [updateDupChildren_pcPairs_infoNoDup cc, updateDupChildren_pcPairs_infoNoDup t,
        updateDupChildren_toList_pair ci cc]
end

/-! ## Claim C2: cycle handling in transitive excluded-field resolution -/

theorem resolve_foldl_diverge (fuel : Nat) (reg : Registry) (l : List (String × String)) :
    l.foldl (fun acc p => acc.bind (fun x =>
      (resolveAllTreeCompositeFields fuel reg p.2).bind (fun fs => Res.ok (x ++ fs))))
      Res.diverge = Res.diverge := by
  induction l with
  | nil => rfl
  | cons p rest ih => simpa [Res.bind] using ih

/-- Helper: a fragment whose reference map starts with a reference to itself
makes `resolveAllTreeCompositeFields` return no result at any recursion
depth. -/
theorem resolve_selfref_diverge_aux (reg : Registry) (a : String)
    (h : (lookupReg reg a).map
      (fun e => e.nestedFieldToCompositeNameMap.head?.map (fun q => q.2)) = some (some a)) :
    ∀ fuel, resolveAllTreeCompositeFields fuel reg a = Res.diverge := by
  intro fuel
  induction fuel with
  | zero => rfl
  | succ n ih =>
    match he : lookupReg reg a with
    | none => rw [he] at h; simp at h
    | some e =>
      rw [he] at h
      simp at h
      match hm : e.nestedFieldToCompositeNameMap with
      | [] => rw [hm] at h; simp at h
      | q :: rest =>
        rw [hm] at h
        simp at h
        obtain ⟨f, hq⟩ := h
        subst hq
        have hstep : resolveAllTreeCompositeFields (n + 1) reg a =
            List.foldl (fun acc p => acc.bind (fun l =>
              (resolveAllTreeCompositeFields n reg p.2).bind (fun fs => Res.ok (l ++ fs))))
              (Res.ok e.directNestedFields) e.nestedFieldToCompositeNameMap := by
          rw [resolveAllTreeCompositeFields, he]
        rw [hstep, hm, List.foldl_cons]
        simp only [Res.bind, ih]
        exact resolve_foldl_diverge n reg rest

/-- A self-referencing composite fragment configuration (fragment `A` whose
group holds a composite reference back to `A`). -/
def cycChild : NestedGroupConfig :=
  .mk "ID" "" "B" "A" (some true) (some true) (some true) .nil []

def cycComposite : NestedCompositeConfig :=
  { name := "A", structRootIn := "ARow", group := .cons cycChild .nil }

/-- The registry after pass 1 on the cyclic configuration: fragment `A`
references fragment `A`. -/
def cycRegistry : Registry := buildCompositeStructRegistryPass1 [] [cycComposite]

/-- Claim C2, counterexample: on a registry whose fragment reference graph
has a cycle (fragment `A` reachable from itself), resolving the transitive
excluded-field set of `A` never terminates with any result — in particular
it does not fail with an error, contrary to the claim: at every recursion
depth the model reports divergence. -/
theorem resolve_on_cycle_never_returns :
    ¬ ∃ fuel, resolveAllTreeCompositeFields fuel cycRegistry "A" ≠ Res.diverge := by
  intro hex
  obtain ⟨fuel, hne⟩ := hex
  exact hne (resolve_selfref_diverge_aux cycRegistry "A" (by decide) fuel)

/-- Claim C2 (corrected): `resolveAllTreeCompositeFields` performs no cycle
detection.  For any registry in which a fragment's reference map begins with
a reference to the fragment itself, resolution recurses without bound: at
every recursion-depth budget the model returns divergence rather than a
result or an error.  (The only error the function can produce is a missing
registry entry.) -/
theorem resolve_on_selfref_diverges (reg : Registry) (a : String)
    (h : (lookupReg reg a).map
      (fun e => e.nestedFieldToCompositeNameMap.head?.map (fun q => q.2)) = some (some a))
    (fuel : Nat) :
    resolveAllTreeCompositeFields fuel reg a = Res.diverge :=
  resolve_selfref_diverge_aux reg a h fuel

/-- Witness for claim C2's corrected theorem, at the concrete cyclic
registry. -/
theorem resolve_on_selfref_diverges_witness :
    ((lookupReg cycRegistry "A").map
      (fun e => e.nestedFieldToCompositeNameMap.head?.map (fun q => q.2)) = some (some "A"))
    ∧ resolveAllTreeCompositeFields 5 cycRegistry "A" = Res.diverge :=
  ⟨by decide, resolve_on_selfref_diverges cycRegistry "A" (by decide) 5⟩

/-! ## Claim C3: the unset `is_composite` flag -/

/-- Claim C3, counterexample: a configuration node whose `is_composite`
option is left unspecified is read as composite (`true`) by the accessor
`GetIsComposite` used during tree resolution and skip-generation decisions,
contradicting the claim that every read observes `false`. -/
theorem GetIsComposite_nil_reads_true :
    (NestedGroupConfig.mk "ID" "" "User" "UserOut" none none none .nil []).GetIsComposite = true :=
  rfl

/-- Claim C3 (corrected): an unspecified `is_composite` is *not* read
uniformly as `false`.  Default population writes `false`, the registry
builder's composite-reference scan and the field-exclusion collection treat
the node as non-composite, but `GetIsComposite` — the read used by
buildNestedStructData for composite redirection and skip-generation
decisions — observes `true`. -/
theorem isComposite_nil_reads_split (c : NestedGroupConfig) (reg : Registry)
    (h : c.isComposite = none) (hg : c.group = .nil) :
    c.GetIsComposite = true
    ∧ (populateNestedConfigItemWithDefaultValues c).isComposite = some false
    ∧ getNestedFields reg (.cons c .nil) = [c.structIn]
    ∧ (∀ nm ri, (lookupReg (buildCompositeStructRegistryPass1 []
        [{ name := nm, structRootIn := ri, group := .cons c .nil }]) nm).map
          (fun e => e.nestedFieldToCompositeNameMap) = some []) := by
  cases c with
  | mk fgb fo si so sl pt cp grp mr =>
    simp only [NestedGroupConfig.isComposite] at h
    simp only [NestedGroupConfig.group] at hg
    subst h; subst hg
    refine ⟨rfl, rfl, rfl, ?_⟩
    intro nm ri
    simp [buildCompositeStructRegistryPass1, registerCompositeStructData, setReg, lookupReg,
      NGCList.toList, NestedGroupConfig.isComposite, NestedGroupConfig.structIn]

/-- Witness for claim C3's corrected theorem at a concrete unset-flag node. -/
theorem isComposite_nil_reads_split_witness :
    ((NestedGroupConfig.mk "ID" "" "User" "UserOut" none none none .nil []).isComposite = none)
    ∧ ((NestedGroupConfig.mk "ID" "" "User" "UserOut" none none none .nil []).group = .nil)
    ∧ (NestedGroupConfig.mk "ID" "" "User" "UserOut" none none none .nil []).GetIsComposite = true
    ∧ (populateNestedConfigItemWithDefaultValues
        (NestedGroupConfig.mk "ID" "" "User" "UserOut" none none none .nil [])).isComposite = some false :=
  ⟨rfl, rfl,
    (isComposite_nil_reads_split (NestedGroupConfig.mk "ID" "" "User" "UserOut" none none none .nil [])
      [] rfl rfl).1,
    (isComposite_nil_reads_split (NestedGroupConfig.mk "ID" "" "User" "UserOut" none none none .nil [])
      [] rfl rfl).2.1⟩

/-! ## Claim C4: nesting configuration naming an unknown query -/

/-- A nesting config whose `query` matches nothing in the catalog. -/
def ghostCfg : NestedQueryConfig :=
  { query := "GetMissing", fieldGroupBy := "", structRoot := "G", group := .nil,
    isComposite := some false }

def ghostEnv : BuildEnv :=
  { options := { emitJsonTags := false, emitResultStructPointers := true,
                 outputModelsPackage := "entity",
                 nested := some { composites := [], queries := [ghostCfg] } },
    queries := [], structs := [],
    nested := [{ sourceFileName := "g.sql", configs := [ghostCfg], nestedDataItems := [] }],
    pluralizeCasePreserving := fun s => s,
    singularizeCasePreserving := fun s => s,
    jsonTagName := fun s => s }

/-- Claim C4, counterexample: a nesting query configuration naming a query
that is in the catalog neither by method name nor by source name does *not*
fail the generation request; the whole run succeeds, the offending config is
silently skipped (the source logs a debug warning and continues). -/
theorem unknown_query_run_succeeds :
    populateNestedDataItems 5 ghostEnv [] =
      Res.ok ([{ sourceFileName := "g.sql", configs := [ghostCfg], nestedDataItems := [] }], []) :=
  rfl

/-- Claim C4 (corrected): a nesting query configuration whose `query` matches
no catalog query (neither `MethodName` nor `SourceName`) is skipped: it
produces no template data, no error, and leaves the struct-root bookkeeping
and the registry untouched, and processing continues with the remaining
configurations. -/
theorem buildNestedDataItems_skips_unknown_query (fuel : Nat) (env : BuildEnv)
    (config : NestedQueryConfig) (rest : List NestedQueryConfig)
    (gsr : List (String × String)) (reg : Registry)
    (h : env.queries.find? (fun q => q.methodName == config.query || q.sourceName == config.query) = none) :
    buildNestedDataItemsFrom fuel env (config :: rest) gsr reg =
      buildNestedDataItemsFrom fuel env rest gsr reg := by
  rw [buildNestedDataItemsFrom, h]

/-- Witness for claim C4's corrected theorem at a concrete unknown-query
configuration. -/
theorem buildNestedDataItems_skips_unknown_query_witness :
    (ghostEnv.queries.find? (fun q => q.methodName == ghostCfg.query || q.sourceName == ghostCfg.query) = none)
    ∧ buildNestedDataItemsFrom 5 ghostEnv [ghostCfg] [] [] =
        buildNestedDataItemsFrom 5 ghostEnv [] [] [] :=
  ⟨rfl, buildNestedDataItems_skips_unknown_query 5 ghostEnv ghostCfg [] [] [] rfl⟩

/-! ## Inversion of a successful tree build -/

/-- The info record buildNestedStructData constructs, as a function of the
values it computes. -/
def builtInfo (env : BuildEnv) (queryName : String) (config : NestedGroupConfig)
    (reg : Registry) (structFields : List Field) (structInName : String)
    (isEntity : Bool) (skip isRoot : Bool) : NestedStructDataInfo :=
  { structIn := structInName, structOut := config.structOut,
    fieldGroupBy := config.fieldGroupBy,
    isSlice := config.GetIsSlice, isPointer := config.GetIsPointer,
    keyType := determineKeyType config.fieldGroupBy,
    fieldName := getFieldNameFromNestedConfig env config,
    fieldType := getFieldType env config.structIn config.structOut
      config.GetIsSlice config.GetIsPointer isEntity (some config),
    rowFieldName := config.structIn,
    rowFieldType := env.options.outputModelsPackage ++ "." ++ config.structIn,
    fieldTags := [("json", env.jsonTagName (getFieldNameFromNestedConfig env config))],
    fields := getNonNestedStructFields reg structFields (NGCList.cons config .nil),
    isEntityStruct := isEntity,
    isComposite := config.GetIsComposite,
    isRowFieldExistsInQuery := isRowFieldExistsInQuery env queryName config,
    skipStructGeneration := skip, isRoot := isRoot,
    matchCfg := config.matchCfg,
    duplicatedRelativeToParents := [] }

theorem Res.bind_eq_ok {α β : Type} {v : Res α} {f : α → Res β} {z : β}
    (h : v.bind f = .ok z) : ∃ a, v = .ok a ∧ f a = .ok z := by
  cases v with
  | ok a => exact ⟨a, rfl, h⟩
  | fail e => simp [Res.bind] at h
  | diverge => simp [Res.bind] at h

theorem build_ok_inversion (fuel : Nat) (env : BuildEnv) (qn : String)
    (cfg : NestedGroupConfig) (ps : Option Bool) (sf : List Field) (reg : Registry)
    (t : NestedStructData) (r' : Registry)
    (h : buildNestedStructData (fuel + 1) env qn cfg ps sf reg = .ok (t, r')) :
    ∃ (query : Query) (isAlr : Bool) (nestedConfigs : NGCList) (structInName : String)
      (reg1 : Registry) (children : List NestedStructData),
      getQueryByName env qn = some query
      ∧ ((cfg.GetIsComposite = true ∧ ∃ cd, lookupReg reg cfg.structOut = some cd
            ∧ nestedConfigs = cd.config.group ∧ structInName = cd.config.structRootIn)
         ∨ (cfg.GetIsComposite = false ∧ nestedConfigs = cfg.group ∧ structInName = cfg.structIn))
      ∧ IsCompositeStructAlreadyGenerated reg cfg = Res.ok isAlr
      ∧ (let isRootConfig := ps.isNone
         let willBe := IsCompositeStructWillBeGeneratedInAnotherFile env cfg
         let skip := !isRootConfig && (isAlr || willBe || ps.getD false)
         ((isRootConfig || (!willBe && (lookupReg reg cfg.structOut).isSome && !(ps.getD false))) = true
            → (lookupReg reg cfg.structOut).isSome = true ∧ reg1 = markGenerated reg cfg.structOut)
         ∧ ((isRootConfig || (!willBe && (lookupReg reg cfg.structOut).isSome && !(ps.getD false))) = false
            → reg1 = reg)
         ∧ buildNestedStructsList fuel env qn skip nestedConfigs reg1 = Res.ok (children, r')
         ∧ t = updateDuplicatesFromNodePerspective
             (NestedStructData.mk
               (builtInfo env qn cfg reg sf structInName
                 (shouldReuseEntityStruct env cfg.structOut cfg.structIn cfg) skip isRootConfig)
               (NSDList.ofList children)) []) := by
  rw [buildNestedStructData] at h
  split at h
  next hq0 => simp at h
  next query hq0 =>
  obtain ⟨rd, hrd, h⟩ := Res.bind_eq_ok h
  obtain ⟨isAlr, hAlr, h⟩ := Res.bind_eq_ok h
  obtain ⟨reg1, hreg1, h⟩ := Res.bind_eq_ok h
  obtain ⟨built, hbl, h⟩ := Res.bind_eq_ok h
  obtain ⟨u, hv, h⟩ := Res.bind_eq_ok h
  simp only [Res.ok.injEq, Prod.mk.injEq] at h
  obtain ⟨ht, hr⟩ := h
  refine ⟨query, isAlr, rd.1, rd.2, reg1, built.1, hq0, ?_, hAlr, ?_, ?_, ?_, ?_⟩
  · by_cases hcomp : cfg.GetIsComposite = true
    · rw [if_pos hcomp] at hrd
      cases hcd : lookupReg reg cfg.structOut with
      | none => rw [hcd] at hrd; simp at hrd
      | some cd =>
        rw [hcd] at hrd
        simp only [Res.ok.injEq] at hrd
        exact Or.inl ⟨hcomp, cd, rfl, by rw [← hrd], by rw [← hrd]⟩
    · rw [if_neg hcomp] at hrd
      simp only [Res.ok.injEq] at hrd
      exact Or.inr ⟨Bool.eq_false_iff.mpr hcomp, by rw [← hrd], by rw [← hrd]⟩
  · intro hc
    rw [if_pos hc] at hreg1
    cases hcd : lookupReg reg cfg.structOut with
    | none => rw [hcd] at hreg1; simp at hreg1
    | some cd =>
      rw [hcd] at hreg1
      simp only [Res.ok.injEq] at hreg1
      exact ⟨rfl, hreg1.symm⟩
  · intro hc
    rw [if_neg (by simp [hc])] at hreg1
    simp only [Res.ok.injEq] at hreg1
    exact hreg1.symm
  · rw [← hr]
    exact hbl
  · exact ht.symm

theorem buildList_nil_ok (fuel : Nat) (env : BuildEnv) (qn : String) (psk : Bool)
    (reg : Registry) :
    buildNestedStructsList (fuel + 1) env qn psk .nil reg = .ok ([], reg) := rfl

theorem buildList_cons_inversion (fuel : Nat) (env : BuildEnv) (qn : String) (psk : Bool)
    (c : NestedGroupConfig) (rest : NGCList) (reg : Registry)
    (l : List NestedStructData) (r' : Registry)
    (h : buildNestedStructsList (fuel + 1) env qn psk (.cons c rest) reg = .ok (l, r')) :
    ∃ (child : NestedStructData) (reg1 : Registry) (restl : List NestedStructData),
      buildNestedStructData fuel env qn c (some psk)
        (((env.structs.find? (fun s => s.name == c.structIn)).map (fun s => s.fields)).getD []) reg
        = .ok (child, reg1)
      ∧ buildNestedStructsList fuel env qn psk rest reg1 = .ok (restl, r')
      ∧ l = child :: restl := by
  rw [buildNestedStructsList] at h
  obtain ⟨built, hb, h⟩ := Res.bind_eq_ok h
  obtain ⟨rest1, hrest, h⟩ := Res.bind_eq_ok h
  simp only [Res.ok.injEq, Prod.mk.injEq] at h
  refine ⟨built.1, built.2, rest1.1, hb, ?_, h.1.symm⟩
  rw [← h.2]
  exact hrest

theorem ofList_allNodes (l : List NestedStructData) :
    (NSDList.ofList l).allNodes = (l.map NestedStructData.allNodes).flatten := by
  induction l with
  | nil => rfl
  | cons h t ih => simp [NSDList.ofList, allNodesL_cons, ih]

/-! ## Claim C10: the derived lookup-map key type is constant -/

/-- Claim C10 (confirmed): for every node of every successfully built
nesting tree, the derived lookup-map key type is the constant
`determineKeyType` result `"pgtype.UUID"`, regardless of the configured
group-by field and of the catalog. -/
theorem built_keyType_constant : ∀ (fuel : Nat) (env : BuildEnv) (qn : String)
    (cfg : NestedGroupConfig) (ps : Option Bool) (sf : List Field) (reg : Registry)
    (t : NestedStructData) (r' : Registry),
    buildNestedStructData fuel env qn cfg ps sf reg = .ok (t, r') →
    ∀ n ∈ t.allNodes, n.info.keyType = determineKeyType n.info.fieldGroupBy
      ∧ n.info.keyType = "pgtype.UUID" := by
  have main : ∀ (fuel : Nat),
      (∀ (env : BuildEnv) (qn : String) (cfg : NestedGroupConfig) (ps : Option Bool)
        (sf : List Field) (reg : Registry) (t : NestedStructData) (r' : Registry),
        buildNestedStructData fuel env qn cfg ps sf reg = .ok (t, r') →
        ∀ n ∈ t.allNodes, n.info.keyType = "pgtype.UUID")
      ∧ (∀ (env : BuildEnv) (qn : String) (psk : Bool) (grp : NGCList) (reg : Registry)
        (l : List NestedStructData) (r' : Registry),
        buildNestedStructsList fuel env qn psk grp reg = .ok (l, r') →
        ∀ t ∈ l, ∀ n ∈ t.allNodes, n.info.keyType = "pgtype.UUID") := by
    intro fuel
    induction fuel with
    | zero =>
      constructor
      · intro env qn cfg ps sf reg t r' h
        simp [buildNestedStructData] at h
      · intro env qn psk grp reg l r' h
        simp [buildNestedStructsList] at h
    | succ n ih =>
      obtain ⟨ihB, ihL⟩ := ih
      constructor
      · intro env qn cfg ps sf reg t r' h n' hn'
        obtain ⟨query, isAlr, ncfgs, sIn, reg1, children, hq, hred, hAlr, hrest⟩ :=
          build_ok_inversion n env qn cfg ps sf reg t r' h
        obtain ⟨hmT, hmF, hbl, ht⟩ := hrest
        subst ht
        have hmap := updateDup_allNodes_infoNoDup
          (NestedStructData.mk
            (builtInfo env qn cfg reg sf sIn
              (shouldReuseEntityStruct env cfg.structOut cfg.structIn cfg)
              (!ps.isNone && (isAlr || IsCompositeStructWillBeGeneratedInAnotherFile env cfg || ps.getD false))
              ps.isNone)
            (NSDList.ofList children)) []
        have h1 : infoNoDup n'.info ∈
            ((NestedStructData.mk
              (builtInfo env qn cfg reg sf sIn
                (shouldReuseEntityStruct env cfg.structOut cfg.structIn cfg)
                (!ps.isNone && (isAlr || IsCompositeStructWillBeGeneratedInAnotherFile env cfg || ps.getD false))
                ps.isNone)
              (NSDList.ofList children)).allNodes.map (fun n => infoNoDup n.info)) := by
          rw [← hmap]
          exact List.mem_map_of_mem _ hn'
        obtain ⟨m, hm, hinfo⟩ := List.mem_map.mp h1
        have hkt : n'.info.keyType = m.info.keyType := by
          have := congrArg NestedStructDataInfo.keyType hinfo
          simpa [infoNoDup] using this.symm
        rw [hkt]
        rw [allNodes_mk] at hm
        rcases List.mem_cons.mp hm with hroot | hdesc
        · rw [hroot]
          rfl
        · rw [ofList_allNodes] at hdesc
          obtain ⟨ns, hns, hmem⟩ := List.mem_flatten.mp hdesc
          obtain ⟨tt, htt, hts⟩ := List.mem_map.mp hns
          exact ihL env qn _ ncfgs reg1 children _ hbl tt htt m (hts ▸ hmem)
      · intro env qn psk grp reg l r' h t ht n' hn'
        cases grp with
        | nil =>
          rw [buildList_nil_ok] at h
          simp only [Res.ok.injEq, Prod.mk.injEq] at h
          rw [← h.1] at ht
          simp at ht
        | cons c rest =>
          obtain ⟨child, reg1, restl, hc, hrest, hl⟩ :=
            buildList_cons_inversion n env qn psk c rest reg l r' h
          subst hl
          rcases List.mem_cons.mp ht with h1 | h1
          · exact ihB env qn c (some psk) _ reg child reg1 hc n' (h1 ▸ hn')
          · exact ihL env qn psk rest reg1 restl r' hrest t h1 n' hn'
  intro fuel env qn cfg ps sf reg t r' h n hn
  have h2 := (main fuel).1 env qn cfg ps sf reg t r' h n hn
  exact ⟨h2, h2⟩

/-! ## Concrete scenarios

Small complete generation requests used as counterexamples and witnesses.
They are built with explicit `is_composite`, `slice` and `pointer` flags (the
state the configuration is in after default population). -/

def Res.isOk {α : Type} : Res α → Bool
  | .ok _ => true
  | _ => false

/-- Helper: a catalog field with the given name. -/
def fld (n : String) : Field := { name := n, dbName := n, typ := "T", tags := [] }

/-- Helper: a group configuration node with defaults filled in. -/
def mkGC (si so : String) (comp : Option Bool) (g : NGCList) : NestedGroupConfig :=
  .mk "ID" "" si so (some true) (some true) comp g []

/-- Scenario A: query `GetStuff` reuses composite `RootC` as its root;
`RootC` references composite `CardComposite`, which requires nested entity
`Image` — but the query's row does not embed `Image`. -/
def imageChild : NestedGroupConfig := mkGC "Image" "Image" (some false) .nil

def cardRef : NestedGroupConfig := mkGC "Card" "CardComposite" (some true) .nil

def compCard : NestedCompositeConfig :=
  { name := "CardComposite", structRootIn := "Card", group := .cons imageChild .nil }

def compRoot : NestedCompositeConfig :=
  { name := "RootC", structRootIn := "RootRow", group := .cons cardRef .nil }

def q1 : Query :=
  { methodName := "GetStuff", sourceName := "stuff.sql",
    ret := some { name := "GetStuffRow", fields := [fld "ID", fld "Name", fld "Card"] } }

def cfg1 : NestedQueryConfig :=
  { query := "GetStuff", fieldGroupBy := "", structRoot := "RootC", group := .nil,
    isComposite := some true }

def env1 : BuildEnv :=
  { options := { emitJsonTags := false, emitResultStructPointers := true,
                 outputModelsPackage := "entity",
                 nested := some { composites := [compRoot, compCard], queries := [cfg1] } },
    queries := [q1],
    structs := [{ name := "Card", fields := [fld "ID", fld "Title"] },
                { name := "Image", fields := [fld "ID", fld "Url"] }],
    nested := [{ sourceFileName := "stuff.sql", configs := [cfg1], nestedDataItems := [] }],
    pluralizeCasePreserving := fun s => s ++ "s",
    singularizeCasePreserving := fun s => s,
    jsonTagName := fun s => s }

def run1 : Res (List Nested × Registry) := populateNestedDataItems 20 env1 []

/-- The tree built for scenario A's query. -/
def tree1 : NestedStructData :=
  match run1 with
  | .ok (item :: _, _) =>
    match item.nestedDataItems with
    | d :: _ => d.rootStructData.getD dummyNSD
    | [] => dummyNSD
  | _ => dummyNSD

/-- Projection of an interface-compatibility error to its reported names:
composite, root, parent, and the `StructIn` of each missing method. -/
def viewIncompat : Except GoErr Unit → Option (String × String × String × List String)
  | .error (.interfaceIncompat c r p m) => some (c, r, p, m.map (fun x => x.structIn))
  | _ => none

/-- Scenario A registry and root build (the call buildNestedData makes). -/
def regA : Registry :=
  match buildCompositeStructRegistry 20 [compRoot, compCard] [] with
  | .ok r => r
  | _ => []

def rootCfg1 : NestedGroupConfig :=
  .mk "ID" "" "RootC" "RootC" none none (some true) .nil []

def res1 : Res (NestedStructData × Registry) :=
  buildNestedStructData 20 env1 "GetStuff" rootCfg1 none
    [fld "ID", fld "Name", fld "Card"] regA

def treeA : NestedStructData :=
  match res1 with
  | .ok p => p.1
  | _ => dummyNSD

def regA2 : Registry :=
  match res1 with
  | .ok p => p.2
  | _ => []

/-- Witness for claim C10 at scenario A's root build. -/
theorem built_keyType_constant_witness :
    buildNestedStructData 20 env1 "GetStuff" rootCfg1 none
      [fld "ID", fld "Name", fld "Card"] regA = .ok (treeA, regA2)
    ∧ ∀ n ∈ treeA.allNodes, n.info.keyType = determineKeyType n.info.fieldGroupBy
      ∧ n.info.keyType = "pgtype.UUID" :=
  ⟨rfl, built_keyType_constant 20 env1 "GetStuff" rootCfg1 none
    [fld "ID", fld "Name", fld "Card"] regA treeA regA2 rfl⟩

/-- Claim C1, counterexample: scenario A's composite `CardComposite`
structurally requires nested entity `Image`, which the query's row does not
embed, yet building the nested template data *succeeds* — the
accessor/interface compatibility check is not run (its call site is
commented out).  Applying the validator to the built tree by hand produces
exactly the error the claim expects, listing `Image` as missing. -/
theorem compat_check_not_run :
    Res.isOk run1 = true
    ∧ viewIncompat (validateNestedInterfaceCompatibility tree1 "RootC") =
        some ("CardComposite", "RootC", "RootC", ["Image"]) := by
  constructor
  · decide
  · decide

/-- Scenario B: a plain node `Card` whose children include a composite
reference to `UserComposite` (root entity `User`); the parent's field
exclusion removes only the composite's transitive child fields (`Image`),
not the composite child's own input name `User`. -/
def imgChild2 : NestedGroupConfig := mkGC "Image" "Image" (some false) .nil

def userRef : NestedGroupConfig := mkGC "User" "UserComposite" (some true) .nil

def cardPlain : NestedGroupConfig := mkGC "Card" "CardOut" (some false) (.cons userRef .nil)

def compUser : NestedCompositeConfig :=
  { name := "UserComposite", structRootIn := "User", group := .cons imgChild2 .nil }

def compRoot2 : NestedCompositeConfig :=
  { name := "RootC2", structRootIn := "RootRow", group := .cons cardPlain .nil }

def q2 : Query :=
  { methodName := "GetQ2", sourceName := "q2.sql",
    ret := some { name := "GetQ2Row", fields := [fld "ID", fld "Card"] } }

def cfg2 : NestedQueryConfig :=
  { query := "GetQ2", fieldGroupBy := "", structRoot := "RootC2", group := .nil,
    isComposite := some true }

def env2 : BuildEnv :=
  { options := { emitJsonTags := false, emitResultStructPointers := true,
                 outputModelsPackage := "entity",
                 nested := some { composites := [compRoot2, compUser], queries := [cfg2] } },
    queries := [q2],
    structs := [{ name := "Card", fields := [fld "ID", fld "User"] },
                { name := "User", fields := [fld "ID", fld "Name"] },
                { name := "Image", fields := [fld "ID"] }],
    nested := [{ sourceFileName := "q2.sql", configs := [cfg2], nestedDataItems := [] }],
    pluralizeCasePreserving := fun s => s ++ "s",
    singularizeCasePreserving := fun s => s,
    jsonTagName := fun s => s }

def run2 : Res (List Nested × Registry) := populateNestedDataItems 20 env2 []

def tree2 : NestedStructData :=
  match run2 with
  | .ok (item :: _, _) =>
    match item.nestedDataItems with
    | d :: _ => d.rootStructData.getD dummyNSD
    | [] => dummyNSD
  | _ => dummyNSD

/-- The `Card` node of scenario B's tree. -/
def cardNode : NestedStructData :=
  match tree2.children with
  | .cons c _ => c
  | _ => dummyNSD

/-- The composite `User` child of the `Card` node. -/
def userNode : NestedStructData :=
  match cardNode.children with
  | .cons c _ => c
  | _ => dummyNSD

/-- Claim C5, counterexample: in scenario B's successfully built tree, the
resolved `Card` node keeps `User` among its own extracted fields, while its
composite child's input type name is also `User`: the two sets are not
disjoint, so that row field is emitted both flatly and as a nested child. -/
theorem own_fields_not_disjoint_for_composite_child :
    Res.isOk run2 = true
    ∧ userNode.info.isComposite = true
    ∧ ("User" ∈ cardNode.children.toList.map (fun c => c.info.structIn))
    ∧ ("User" ∈ cardNode.info.fields.map (fun f => f.name)) := by
  refine ⟨by decide, by decide, by decide, by decide⟩

/-- Scenario C: two queries in two different source files both claim
composite `X` as their `struct_root`. -/
def leafChild : NestedGroupConfig := mkGC "Leaf" "Leaf" (some false) .nil

def compX : NestedCompositeConfig :=
  { name := "X", structRootIn := "XRow", group := .cons leafChild .nil }

def qa : Query :=
  { methodName := "QA", sourceName := "a.sql",
    ret := some { name := "QARow", fields := [fld "ID", fld "Leaf"] } }

def qb : Query :=
  { methodName := "QB", sourceName := "b.sql",
    ret := some { name := "QBRow", fields := [fld "ID", fld "Leaf"] } }

def cfgA : NestedQueryConfig :=
  { query := "QA", fieldGroupBy := "", structRoot := "X", group := .nil,
    isComposite := some true }

def cfgB : NestedQueryConfig :=
  { query := "QB", fieldGroupBy := "", structRoot := "X", group := .nil,
    isComposite := some true }

def env3 : BuildEnv :=
  { options := { emitJsonTags := false, emitResultStructPointers := true,
                 outputModelsPackage := "entity",
                 nested := some { composites := [compX], queries := [cfgA, cfgB] } },
    queries := [qa, qb],
    structs := [{ name := "Leaf", fields := [fld "ID"] }],
    nested := [{ sourceFileName := "a.sql", configs := [cfgA], nestedDataItems := [] },
               { sourceFileName := "b.sql", configs := [cfgB], nestedDataItems := [] }],
    pluralizeCasePreserving := fun s => s ++ "s",
    singularizeCasePreserving := fun s => s,
    jsonTagName := fun s => s }

def run3 : Res (List Nested × Registry) := populateNestedDataItems 20 env3 []

/-- Number of nodes of a tree whose (duplicate-map-erased) info satisfies a
predicate. -/
def countIf (p : NestedStructDataInfo → Bool) (t : NestedStructData) : Nat :=
  (t.allNodes.map (fun n => infoNoDup n.info)).countP p

/-- Total `countIf` over all trees built for a run's source files. -/
def countItems (p : NestedStructDataInfo → Bool) (items : List Nested) : Nat :=
  (items.map (fun item =>
    (item.nestedDataItems.map (fun d =>
      match d.rootStructData with
      | some t => countIf p t
      | none => 0)).sum)).sum

/-- Nodes that *define* output type `X`: output type `X` with struct
generation enabled (not skipped). -/
def enabledOut (X : String) (i : NestedStructDataInfo) : Bool :=
  i.structOut == X && !i.skipStructGeneration

/-- Non-root composite-reference nodes that define output type `X`. -/
def enabledNonRootCompositeOut (X : String) (i : NestedStructDataInfo) : Bool :=
  i.structOut == X && i.isComposite && !i.isRoot && !i.skipStructGeneration

def run3items : List Nested :=
  match run3 with
  | .ok (items, _) => items
  | _ => []

/-- Claim C6, counterexample: in scenario C both queries reference composite
fragment `X` as their output type (as `struct_root`), the run succeeds, and
*two* nodes with output type `X` have struct generation enabled — the
struct-root bookkeeping is per source file, so each file's root claims `X`
again.  The claim's "exactly one defines `X`" fails. -/
theorem generate_once_violated_across_files :
    cfgA.structRoot = "X" ∧ cfgB.structRoot = "X"
    ∧ Res.isOk run3 = true
    ∧ countItems (enabledOut "X") run3items = 2 := by
  refine ⟨rfl, rfl, by decide, by decide⟩

/-! ## Claim C8: composite field drift detection -/

/-- The missing-field names the drift check computes for a node bound to an
entity present in the catalog. -/
def missingOf (structs : List Struct) (i : NestedStructDataInfo) : List String :=
  match getStructByName structs i.structIn with
  | some entityStruct => i.fields.filterMap (fun f =>
      if fieldExistsInEntityFields entityStruct.fields f.name then none else some f.name)
  | none => []

/-- A node violating the composite-field-existence property: a composite
reference whose row field exists in the query, bound to a catalog entity,
with at least one extracted field absent from the entity. -/
def violatesFieldExistence (structs : List Struct) (i : NestedStructDataInfo) : Bool :=
  i.isComposite && i.isRowFieldExistsInQuery
    && (getStructByName structs i.structIn).isSome && !(missingOf structs i).isEmpty

theorem validateCFE_nil (query : Query) (structs : List Struct) (parent : String) :
    validateCompositeFieldsExistInEntity .nil query structs parent = .ok () := rfl

theorem validateCFE_if_isNil (cc : NSDList) (query : Query) (structs : List Struct)
    (parent : String) :
    (if cc.isNil then Except.ok () else validateCompositeFieldsExistInEntity cc query structs parent)
      = validateCompositeFieldsExistInEntity cc query structs parent := by
  cases cc with
  | nil => rfl
  | cons h t => rfl

/-- Dichotomy of the drift check: either it succeeds and no node violates
the property, or some violating node's data is reported in the error. -/
theorem validateCFE_dichotomy :
    ∀ (ns : NSDList) (query : Query) (structs : List Struct) (parent : String),
    (validateCompositeFieldsExistInEntity ns query structs parent = .ok ()
      ∧ ∀ n ∈ ns.allNodes, violatesFieldExistence structs n.info = false)
    ∨ (∃ n ∈ ns.allNodes, ∃ ent, getStructByName structs n.info.structIn = some ent
        ∧ violatesFieldExistence structs n.info = true
        ∧ validateCompositeFieldsExistInEntity ns query structs parent =
            .error (.compositeFieldsMissing n.info.structOut (missingOf structs n.info)
              n.info.structIn (formatAvailableFields ent.fields) "nested" parent))
  | .nil, query, structs, parent => Or.inl ⟨rfl, by simp [allNodesL_nil]⟩
  | .cons (.mk info cc) rest, query, structs, parent => by
    have hcc := validateCFE_dichotomy cc query structs parent
    have hrest := validateCFE_dichotomy rest query structs parent
    have hunfold : validateCompositeFieldsExistInEntity (.cons (.mk info cc) rest) query structs parent =
        ((if info.isComposite && info.isRowFieldExistsInQuery then
            validateCompositeFieldsAgainstEntity structs info.structOut info.fields
              info.structIn parent "nested"
          else Except.ok ()).bind (fun _ =>
        (validateCompositeFieldsExistInEntity cc query structs parent).bind (fun _ =>
        validateCompositeFieldsExistInEntity rest query structs parent))) := by
      rw [validateCompositeFieldsExistInEntity]
      rw [validateCFE_if_isNil]
    have hmem : NSDList.allNodes (.cons (.mk info cc) rest) =
        NestedStructData.mk info cc :: (cc.allNodes ++ rest.allNodes) := by
      rw [allNodesL_cons, allNodes_mk]; rfl
    -- Step 1: reduce the head check to either ok-and-clean or the head error.
    have hhead : ((if info.isComposite && info.isRowFieldExistsInQuery then
            validateCompositeFieldsAgainstEntity structs info.structOut info.fields
              info.structIn parent "nested"
          else Except.ok ()) = Except.ok ()
          ∧ violatesFieldExistence structs info = false)
        ∨ (∃ ent, getStructByName structs info.structIn = some ent
          ∧ violatesFieldExistence structs info = true
          ∧ (if info.isComposite && info.isRowFieldExistsInQuery then
            validateCompositeFieldsAgainstEntity structs info.structOut info.fields
              info.structIn parent "nested"
          else Except.ok ()) =
            Except.error (.compositeFieldsMissing info.structOut (missingOf structs info)
              info.structIn (formatAvailableFields ent.fields) "nested" parent)) := by
      by_cases hflag : (info.isComposite && info.isRowFieldExistsInQuery) = true
      · rw [if_pos hflag, validateCompositeFieldsAgainstEntity]
        cases hent : getStructByName structs info.structIn with
        | none =>
          refine Or.inl ⟨rfl, ?_⟩
          simp [violatesFieldExistence, hent]
        | some ent =>
          simp only
          by_cases hmiss : (info.fields.filterMap (fun f =>
              if fieldExistsInEntityFields ent.fields f.name then none else some f.name)).isEmpty = true
          · rw [if_pos hmiss]
            refine Or.inl ⟨rfl, ?_⟩
            simp only [violatesFieldExistence, missingOf, hent, hmiss]
            simp
          · rw [if_neg hmiss]
            refine Or.inr ⟨ent, rfl, ?_, ?_⟩
            · simp only [violatesFieldExistence, missingOf, hent]
              simp only [Bool.and_eq_true] at hflag
              simp [hflag.1, hflag.2, Bool.eq_false_iff.mpr hmiss]
            · rw [missingOf, hent]
      · rw [if_neg hflag]
        refine Or.inl ⟨rfl, ?_⟩
        simp only [violatesFieldExistence]
        rcases Bool.and_eq_false_iff.mp (Bool.eq_false_iff.mpr hflag) with h1 | h1
        · rw [h1]; rfl
        · rw [h1]; simp
    rcases hhead with ⟨hhok, hvf⟩ | ⟨ent, hent, hviol, hherr⟩
    · rw [hhok] at hunfold
      simp only [Except.bind] at hunfold
      rcases hcc with ⟨hok, hclean⟩ | ⟨n, hn, ent, hents, hviol, herr⟩
      · rw [hok] at hunfold
        simp only [Except.bind] at hunfold
        rcases hrest with ⟨hok2, hclean2⟩ | ⟨n, hn, ent, hents, hviol, herr⟩
        · refine Or.inl ⟨by rw [hunfold, hok2], ?_⟩
          intro n hn
          rw [hmem] at hn
          rcases List.mem_cons.mp hn with h1 | h1
          · rw [h1]; exact hvf
          · rcases List.mem_append.mp h1 with h2 | h2
            · exact hclean n h2
            · exact hclean2 n h2
        · refine Or.inr ⟨n, ?_, ent, hents, hviol, by rw [hunfold, herr]⟩
          rw [hmem]
          exact List.mem_cons_of_mem _ (List.mem_append_right _ hn)
      · refine Or.inr ⟨n, ?_, ent, hents, hviol, ?_⟩
        · rw [hmem]
          exact List.mem_cons_of_mem _ (List.mem_append_left _ hn)
        · rw [hunfold, herr]
    · refine Or.inr ⟨NestedStructData.mk info cc, ?_, ent, ?_, ?_, ?_⟩
      · rw [hmem]; exact List.mem_cons_self _ _
      · rw [info_mk]; exact hent
      · rw [info_mk]; exact hviol
      · rw [hunfold, hherr, info_mk]
        rfl

/-- Claim C8 (confirmed): if some composite-reference node of a forest is
bound to a catalog entity, its row field exists in the query, and some
extracted field is missing from the entity, then the drift check fails with
an error naming a composite with exactly those properties: its output name,
its missing field names, its bound entity, and the entity's available
fields. -/
theorem composite_field_drift_detected (ns : NSDList) (query : Query)
    (structs : List Struct) (parent : String)
    (h : ∃ n ∈ ns.allNodes, violatesFieldExistence structs n.info = true) :
    ∃ n ∈ ns.allNodes, ∃ ent, getStructByName structs n.info.structIn = some ent
      ∧ missingOf structs n.info ≠ []
      ∧ validateCompositeFieldsExistInEntity ns query structs parent =
          .error (.compositeFieldsMissing n.info.structOut (missingOf structs n.info)
            n.info.structIn (formatAvailableFields ent.fields) "nested" parent) := by
  rcases validateCFE_dichotomy ns query structs parent with ⟨_, hclean⟩ | ⟨n, hn, ent, hents, hviol, herr⟩
  · obtain ⟨n, hn, hv⟩ := h
    rw [hclean n hn] at hv
    cases hv
  · refine ⟨n, hn, ent, hents, ?_, herr⟩
    simp only [violatesFieldExistence, Bool.and_eq_true] at hviol
    intro hemp
    rw [hemp] at hviol
    simp at hviol

/-- A concrete drifted scenario: composite `CardComposite` (row field
present) bound to entity `Card`, expecting field `Bogus` that `Card` does
not have. -/
def driftInfo : NestedStructDataInfo :=
  { emptyNSDInfo with
    structIn := "Card"
    structOut := "CardComposite"
    isComposite := true
    isRowFieldExistsInQuery := true
    fields := [fld "ID", fld "Bogus"] }

def driftForest : NSDList := .cons (.mk driftInfo .nil) .nil

def driftStructs : List Struct := [{ name := "Card", fields := [fld "ID", fld "Title"] }]

/-- Witness for claim C8 at the concrete drifted scenario. -/
theorem composite_field_drift_detected_witness :
    (∃ n ∈ driftForest.allNodes, violatesFieldExistence driftStructs n.info = true)
    ∧ ∃ n ∈ driftForest.allNodes, ∃ ent,
        getStructByName driftStructs n.info.structIn = some ent
        ∧ missingOf driftStructs n.info ≠ []
        ∧ validateCompositeFieldsExistInEntity driftForest q1 driftStructs "Root" =
            .error (.compositeFieldsMissing n.info.structOut (missingOf driftStructs n.info)
              n.info.structIn (formatAvailableFields ent.fields) "nested" "Root") :=
  ⟨by decide, composite_field_drift_detected driftForest q1 driftStructs "Root" (by decide)⟩

/-! ## Claim C1: accessor/interface compatibility -/

theorem validateNCI_nil (pOut : String) (pm : List RowGetterInterfaceMethod) (rn : String) :
    validateNestedCompositeInterfaces pOut pm rn .nil = .ok () := rfl

theorem validateNCI_if_isNil (pOut : String) (pm : List RowGetterInterfaceMethod) (rn : String)
    (cc : NSDList) :
    (if cc.isNil then Except.ok () else validateNestedCompositeInterfaces pOut pm rn cc)
      = validateNestedCompositeInterfaces pOut pm rn cc := by
  cases cc with
  | nil => rfl
  | cons h t => rfl

/-- Dichotomy of the interface-compatibility walk: either every reachable
composite node's required methods are covered by the fixed root-available
set and the walk succeeds, or the walk reports an uncovered composite with
its missing method list. -/
theorem validateNCI_dichotomy :
    ∀ (l : NSDList) (parentOut : String) (parentMethods : List RowGetterInterfaceMethod)
      (rootStructName : String),
    (validateNestedCompositeInterfaces parentOut parentMethods rootStructName l = .ok ()
      ∧ ∀ n ∈ l.allNodes, n.info.isComposite = true →
          findMissingMethods parentMethods (collectCompositeRequiredMethods n) = [])
    ∨ (∃ n ∈ l.allNodes, n.info.isComposite = true
        ∧ findMissingMethods parentMethods (collectCompositeRequiredMethods n) ≠ []
        ∧ ∃ pOut, validateNestedCompositeInterfaces parentOut parentMethods rootStructName l =
            .error (.interfaceIncompat n.info.structOut rootStructName pOut
              (findMissingMethods parentMethods (collectCompositeRequiredMethods n))))
  | .nil, pOut, pm, rn => Or.inl ⟨rfl, by simp [allNodesL_nil]⟩
  | .cons (.mk info cc) rest, pOut, pm, rn => by
    have hcc := validateNCI_dichotomy cc info.structOut pm rn
    have hrest := validateNCI_dichotomy rest pOut pm rn
    have hunfold : validateNestedCompositeInterfaces pOut pm rn (.cons (.mk info cc) rest) =
        ((if info.isComposite then
            (if !(findMissingMethods pm ((collectMethodsRecursive ([], []) false cc).1)).isEmpty then
              Except.error (.interfaceIncompat info.structOut rn pOut
                (findMissingMethods pm ((collectMethodsRecursive ([], []) false cc).1)))
            else validateNestedCompositeInterfaces info.structOut pm rn cc)
          else Except.ok ()).bind (fun _ =>
        (validateNestedCompositeInterfaces info.structOut pm rn cc).bind (fun _ =>
        validateNestedCompositeInterfaces pOut pm rn rest))) := by
      rw [validateNestedCompositeInterfaces]
      rw [validateNCI_if_isNil]
    have hmem : NSDList.allNodes (.cons (.mk info cc) rest) =
        NestedStructData.mk info cc :: (cc.allNodes ++ rest.allNodes) := by
      rw [allNodesL_cons, allNodes_mk]; rfl
    have hreq : collectCompositeRequiredMethods (NestedStructData.mk info cc) =
        (collectMethodsRecursive ([], []) false cc).1 := rfl
    by_cases hcomp : info.isComposite = true
    · rw [if_pos hcomp] at hunfold
      by_cases hmiss : (findMissingMethods pm ((collectMethodsRecursive ([], []) false cc).1)).isEmpty = true
      · rw [if_neg (by simp [hmiss])] at hunfold
        rcases hcc with ⟨hok, hclean⟩ | ⟨n, hn, hviol, hmiss2, pOut2, herr⟩
        · rw [hok] at hunfold
          simp only [Except.bind] at hunfold
          rcases hrest with ⟨hok2, hclean2⟩ | ⟨n, hn, hviol, hmiss2, pOut2, herr⟩
          · refine Or.inl ⟨by rw [hunfold, hok2], ?_⟩
            intro n hn hcompn
            rw [hmem] at hn
            rcases List.mem_cons.mp hn with h1 | h1
            · rw [h1, hreq]
              rw [h1] at hcompn
              exact List.isEmpty_iff.mp hmiss
            · rcases List.mem_append.mp h1 with h2 | h2
              · exact hclean n h2 hcompn
              · exact hclean2 n h2 hcompn
          · refine Or.inr ⟨n, ?_, hviol, hmiss2, pOut2, by rw [hunfold, herr]⟩
            rw [hmem]
            exact List.mem_cons_of_mem _ (List.mem_append_right _ hn)
        · refine Or.inr ⟨n, ?_, hviol, hmiss2, pOut2, ?_⟩
          · rw [hmem]
            exact List.mem_cons_of_mem _ (List.mem_append_left _ hn)
          · rw [hunfold, herr]
            rfl
      · rw [if_pos (by simp [Bool.eq_false_iff.mpr hmiss])] at hunfold
        refine Or.inr ⟨NestedStructData.mk info cc, ?_, ?_, ?_, pOut, ?_⟩
        · rw [hmem]; exact List.mem_cons_self _ _
        · rw [info_mk]; exact hcomp
        · rw [hreq]
          intro hemp
          rw [hemp] at hmiss
          simp at hmiss
        · rw [hunfold, info_mk, hreq]
          rfl
    · rw [if_neg hcomp] at hunfold
      simp only [Except.bind] at hunfold
      rcases hcc with ⟨hok, hclean⟩ | ⟨n, hn, hviol, hmiss2, pOut2, herr⟩
      · rw [hok] at hunfold
        simp only [Except.bind] at hunfold
        rcases hrest with ⟨hok2, hclean2⟩ | ⟨n, hn, hviol, hmiss2, pOut2, herr⟩
        · refine Or.inl ⟨by rw [hunfold, hok2], ?_⟩
          intro n hn hcompn
          rw [hmem] at hn
          rcases List.mem_cons.mp hn with h1 | h1
          · rw [h1, info_mk] at hcompn
            exact absurd hcompn hcomp
          · rcases List.mem_append.mp h1 with h2 | h2
            · exact hclean n h2 hcompn
            · exact hclean2 n h2 hcompn
        · refine Or.inr ⟨n, ?_, hviol, hmiss2, pOut2, by rw [hunfold, herr]⟩
          rw [hmem]
          exact List.mem_cons_of_mem _ (List.mem_append_right _ hn)
      · refine Or.inr ⟨n, ?_, hviol, hmiss2, pOut2, by rw [hunfold, herr]⟩
        rw [hmem]
        exact List.mem_cons_of_mem _ (List.mem_append_left _ hn)

/-- Claim C1 (corrected): the accessor/interface compatibility validator,
applied to a fully built tree, either succeeds — in which case every
composite node reachable below the root has all its required getter methods
available on the root's row — or fails with an error naming an incompatible
composite and listing exactly its missing required methods.  (The generator
itself never runs this check: the call in buildNestedData is commented out,
as the counterexample shows by exhibiting a successful build that the
validator rejects.) -/
theorem validateNestedInterfaceCompatibility_spec (rootStruct : NestedStructData)
    (rootStructName : String) :
    (validateNestedInterfaceCompatibility rootStruct rootStructName = .ok ()
      ∧ ∀ n ∈ rootStruct.children.allNodes, n.info.isComposite = true →
          findMissingMethods (collectRequiredMethods rootStruct)
            (collectCompositeRequiredMethods n) = [])
    ∨ (∃ n ∈ rootStruct.children.allNodes, n.info.isComposite = true
        ∧ findMissingMethods (collectRequiredMethods rootStruct)
            (collectCompositeRequiredMethods n) ≠ []
        ∧ ∃ pOut, validateNestedInterfaceCompatibility rootStruct rootStructName =
            .error (.interfaceIncompat n.info.structOut rootStructName pOut
              (findMissingMethods (collectRequiredMethods rootStruct)
                (collectCompositeRequiredMethods n)))) := by
  have h := validateNCI_dichotomy rootStruct.children rootStruct.info.structOut
    (collectRequiredMethods rootStruct) rootStructName
  rcases h with ⟨hok, hclean⟩ | ⟨n, hn, hviol, hmiss, pOut2, herr⟩
  · exact Or.inl ⟨hok, hclean⟩
  · exact Or.inr ⟨n, hn, hviol, hmiss, pOut2, herr⟩

/-! ## Claim C7: correctness of the duplicate-level flags -/

/-- Specification counter: the number of nodes with `StructOut = s` in a
forest, counting every node of every tree. -/
def NSDList.descCountL (s : String) : NSDList → Nat
  | .nil => 0
  | .cons (.mk ci cc) rest =>
    (if ci.structOut = s then 1 else 0) + NSDList.descCountL s cc
      + NSDList.descCountL s rest

/-- Specification counter: the number of strict descendants of a node with
`StructOut = s`. -/
def NestedStructData.descCount (s : String) (t : NestedStructData) : Nat :=
  NSDList.descCountL s t.children

theorem descCountL_cons (s : String) (ci : NestedStructDataInfo) (cc rest : NSDList) :
    NSDList.descCountL s (.cons (.mk ci cc) rest) =
      (if ci.structOut = s then 1 else 0) + NSDList.descCountL s cc
        + NSDList.descCountL s rest := rfl

theorem children_mk (i : NestedStructDataInfo) (c : NSDList) :
    (NestedStructData.mk i c).children = c := rfl

theorem appendSOMap_len (m : SOMap) (k : String) (v : NestedStructData) (s : String) :
    ((appendSOMap m k v) s).length = (m s).length + (if k = s then 1 else 0) := by
  unfold appendSOMap
  by_cases h : s = k
  · subst h
    simp
  · rw [if_neg h, if_neg (fun hh => h hh.symm)]
    omega

theorem collectSO_apply_len : ∀ (l : NSDList) (m : SOMap) (s : String),
    ((collectSO m l) s).length = (m s).length + NSDList.descCountL s l
  | .nil, m, s => rfl
  | .cons (.mk ci cc) rest, m, s => by
    show ((collectSO (collectSO
        (appendSOMap m ci.structOut (NestedStructData.mk ci cc)) cc) rest) s).length = _
    rw [collectSO_apply_len rest, collectSO_apply_len cc, appendSOMap_len, descCountL_cons]
    by_cases h : ci.structOut = s
    · rw [if_pos h]
      omega
    · rw [if_neg h]
      omega

theorem dupFlagAt_eq_descCount (a : NestedStructData) (out : String) :
    dupFlagAt a out = decide (NestedStructData.descCount out a > 1) := by
  unfold dupFlagAt collectAllNestedStructsByStructOut
  rw [collectSO_apply_len]
  simp [emptySOMap, NestedStructData.descCount]

/-- The map read `DuplicatedRelativeToParents[level]`. -/
def lookupDupLevel (dup : List (Nat × Bool)) (level : Nat) : Option Bool :=
  (dup.find? (fun e => e.1 == level)).map (fun e => e.2)

theorem lookupDupLevel_set_self : ∀ (dup : List (Nat × Bool)) (k : Nat) (v : Bool),
    lookupDupLevel (setDupLevel dup k v) k = some v
  | [], k, v => by
    simp [setDupLevel, lookupDupLevel, List.find?]
  | e :: rest, k, v => by
    by_cases he : (e.1 == k) = true
    · simp [setDupLevel, if_pos he, lookupDupLevel, List.find?, he]
    · have hne : (e.1 == k) = false := Bool.eq_false_iff.mpr he
      simp only [setDupLevel, hne, Bool.false_eq_true, if_false, lookupDupLevel,
        List.find?, hne]
      exact lookupDupLevel_set_self rest k v

theorem lookupDupLevel_set_other : ∀ (dup : List (Nat × Bool)) (k : Nat) (v : Bool)
    (j : Nat), j ≠ k → lookupDupLevel (setDupLevel dup k v) j = lookupDupLevel dup j
  | [], k, v, j, h => by
    have hkj : (k == j) = false := by
      simp
      omega
    simp [setDupLevel, lookupDupLevel, List.find?, hkj]
  | e :: rest, k, v, j, h => by
    by_cases he : (e.1 == k) = true
    · have h1 : e.1 = k := by simpa using he
      have hej : (e.1 == j) = false := by
        simp
        omega
      rw [h1] at hej
      simp [setDupLevel, h1, lookupDupLevel, List.find?, hej]
    · have hne : (e.1 == k) = false := Bool.eq_false_iff.mpr he
      by_cases hej : (e.1 == j) = true
      · simp [setDupLevel, hne, lookupDupLevel, List.find?, hej]
      · have hej' : (e.1 == j) = false := Bool.eq_false_iff.mpr hej
        simp only [setDupLevel, hne, Bool.false_eq_true, if_false, lookupDupLevel,
          List.find?, hej']
        exact lookupDupLevel_set_other rest k v j h

theorem computeDupFlags_lookup_aux (n : Nat) :
    ∀ (f : Nat → Bool) (dup0 : List (Nat × Bool)) (L : Nat), 1 ≤ L → L ≤ n →
    lookupDupLevel ((List.range n).foldl (fun dup i => setDupLevel dup (i + 1) (f i)) dup0) L
      = some (f (L - 1)) := by
  induction n with
  | zero =>
    intro f dup0 L h1 h2
    omega
  | succ n ih =>
    intro f dup0 L h1 h2
    rw [List.range_succ, List.foldl_append]
    simp only [List.foldl_cons, List.foldl_nil]
    by_cases hL : L = n + 1
    · subst hL
      rw [lookupDupLevel_set_self]
      simp
    · rw [lookupDupLevel_set_other _ _ _ _ hL]
      exact ih f dup0 L h1 (by omega)

theorem computeDupFlags_lookup (childOut : String) (dup0 : List (Nat × Bool))
    (childAnc : List NestedStructData) (L : Nat) (h1 : 1 ≤ L) (h2 : L ≤ childAnc.length) :
    lookupDupLevel (computeDupFlags childOut dup0 childAnc) L =
      some (dupFlagAt (childAnc.getD (childAnc.length - L) dummyNSD) childOut) := by
  have h := computeDupFlags_lookup_aux childAnc.length
    (fun i => dupFlagAt (childAnc.getD (childAnc.length - (i + 1)) dummyNSD) childOut)
    dup0 L h1 h2
  have e : computeDupFlags childOut dup0 childAnc =
      (List.range childAnc.length).foldl
        (fun dup i => setDupLevel dup (i + 1)
          ((fun i => dupFlagAt (childAnc.getD (childAnc.length - (i + 1)) dummyNSD) childOut)
            i)) dup0 := rfl
  rw [e, h]
  simp [Nat.sub_add_cancel h1]

theorem updateDupChildren_descCountL : ∀ (l : NSDList) (anc : List NestedStructData)
    (s : String), NSDList.descCountL s (updateDupChildren l anc) = NSDList.descCountL s l
  | .nil, _, _ => rfl
  | .cons (.mk ci cc) rest, anc, s => by
    rw [updateDupChildren_cons, descCountL_cons, descCountL_cons,
      updateDupChildren_descCountL cc, updateDupChildren_descCountL rest]

theorem descCount_mk_updateDup (i0 : NestedStructDataInfo) (cs : NSDList)
    (a : List NestedStructData) (s : String) :
    NestedStructData.descCount s (.mk i0 (updateDupChildren cs a)) =
      NestedStructData.descCount s (.mk i0 cs) :=
  updateDupChildren_descCountL cs a s

/-- Correctness of the duplicate flags over a forest: every node, for every
ancestor level `L` (level 1 = the direct parent), carries exactly the flag
"the number of occurrences of its `StructOut` among that ancestor's strict
descendants exceeds 1".  `anc` is the node's ancestor chain, oldest first. -/
def DupOKList : List NestedStructData → NSDList → Prop
  | _, .nil => True
  | anc, .cons (.mk ci cc) rest =>
    ((∀ L, 1 ≤ L → L ≤ anc.length →
        lookupDupLevel ci.duplicatedRelativeToParents L =
          some (decide (NestedStructData.descCount ci.structOut
            (anc.getD (anc.length - L) dummyNSD) > 1)))
      ∧ DupOKList (anc ++ [NestedStructData.mk ci cc]) cc)
    ∧ DupOKList anc rest

theorem DupOKList_cons (anc : List NestedStructData) (ci : NestedStructDataInfo)
    (cc rest : NSDList) :
    DupOKList anc (.cons (.mk ci cc) rest) ↔
      ((∀ L, 1 ≤ L → L ≤ anc.length →
          lookupDupLevel ci.duplicatedRelativeToParents L =
            some (decide (NestedStructData.descCount ci.structOut
              (anc.getD (anc.length - L) dummyNSD) > 1)))
        ∧ DupOKList (anc ++ [NestedStructData.mk ci cc]) cc)
      ∧ DupOKList anc rest := Iff.rfl

theorem dupField_set (ci : NestedStructDataInfo) (x : List (Nat × Bool)) :
    ({ ci with duplicatedRelativeToParents := x } : NestedStructDataInfo).duplicatedRelativeToParents = x := rfl

theorem structOutField_set (ci : NestedStructDataInfo) (x : List (Nat × Bool)) :
    ({ ci with duplicatedRelativeToParents := x } : NestedStructDataInfo).structOut = ci.structOut := rfl

theorem updateDupChildren_DupOK : ∀ (l : NSDList) (anc anc' : List NestedStructData),
    anc'.length = anc.length →
    (∀ i s, NestedStructData.descCount s (anc'.getD i dummyNSD) =
        NestedStructData.descCount s (anc.getD i dummyNSD)) →
    DupOKList anc' (updateDupChildren l anc)
  | .nil, _, _, _, _ => True.intro
  | .cons (.mk ci cc) rest, anc, anc', hlen, hcnt => by
    rw [updateDupChildren_cons, DupOKList_cons]
    refine ⟨⟨?_, ?_⟩, ?_⟩
    · intro L h1 h2
      have h2' : L ≤ anc.length := hlen ▸ h2
      rw [dupField_set, structOutField_set, computeDupFlags_lookup ci.structOut _ anc L h1 h2',
        dupFlagAt_eq_descCount, hlen, hcnt (anc.length - L) ci.structOut]
    · refine updateDupChildren_DupOK cc (anc ++ [NestedStructData.mk ci cc]) _ ?_ ?_
      · simp [hlen]
      · intro i s
        rcases Nat.lt_trichotomy i anc.length with hi | hi | hi

        · have hi' : i < anc'.length := by omega
          rw [List.getD_append _ _ _ _ hi', List.getD_append _ _ _ _ hi]
          exact hcnt i s
        · subst hi
          rw [List.getD_append_right _ _ _ _ (by omega), List.getD_append_right _ _ _ _ (by omega)]
          rw [hlen, Nat.sub_self, List.getD_cons_zero, List.getD_cons_zero]
          exact descCount_mk_updateDup _ cc (anc ++ [NestedStructData.mk ci cc]) s
        · rw [List.getD_append_right _ _ _ _ (by omega), List.getD_append_right _ _ _ _ (by omega)]
          rw [List.getD_eq_default _ _ (by simp; omega), List.getD_eq_default _ _ (by simp; omega)]
    · exact updateDupChildren_DupOK rest anc anc' hlen hcnt

/-- Scenario D: a composite root `RootD` whose group contains a composite
reference to `Y` both directly and inside the plain node `BoxOut`, so
`StructOut = "Y"` occurs twice below the root but once below `BoxOut`. -/
def yRef : NestedGroupConfig := mkGC "Img" "Y" (some true) .nil

def boxPlain : NestedGroupConfig := mkGC "Box" "BoxOut" (some false) (.cons yRef .nil)

def compY : NestedCompositeConfig :=
  { name := "Y", structRootIn := "Img", group := .nil }

def compRoot3 : NestedCompositeConfig :=
  { name := "RootD", structRootIn := "RootRow",
    group := .cons yRef (.cons boxPlain .nil) }

def q4 : Query :=
  { methodName := "GetBoxes", sourceName := "boxes.sql",
    ret := some { name := "GetBoxesRow", fields := [fld "ID", fld "Img", fld "Box"] } }

def cfg4 : NestedQueryConfig :=
  { query := "GetBoxes", fieldGroupBy := "", structRoot := "RootD", group := .nil,
    isComposite := some true }

def env4 : BuildEnv :=
  { options := { emitJsonTags := false, emitResultStructPointers := true,
                 outputModelsPackage := "entity",
                 nested := some { composites := [compRoot3, compY], queries := [cfg4] } },
    queries := [q4],
    structs := [{ name := "Img", fields := [fld "ID"] },
                { name := "Box", fields := [fld "ID", fld "Img"] }],
    nested := [{ sourceFileName := "boxes.sql", configs := [cfg4], nestedDataItems := [] }],
    pluralizeCasePreserving := fun s => s ++ "s",
    singularizeCasePreserving := fun s => s,
    jsonTagName := fun s => s }

def regD : Registry :=
  match buildCompositeStructRegistry 20 [compRoot3, compY] [] with
  | .ok r => r
  | _ => []

def rootCfg4 : NestedGroupConfig :=
  .mk "ID" "" "RootD" "RootD" none none (some true) .nil []

def res4 : Res (NestedStructData × Registry) :=
  buildNestedStructData 20 env4 "GetBoxes" rootCfg4 none
    [fld "ID", fld "Img", fld "Box"] regD

def treeD : NestedStructData :=
  match res4 with
  | .ok p => p.1
  | _ => dummyNSD

def regD2 : Registry :=
  match res4 with
  | .ok p => p.2
  | _ => []

/-- Claim C7 (confirmed): every tree returned by a successful
buildNestedStructData call carries correct duplicate flags — for every node
below the root and every ancestor level `L` (1 = direct parent, up to the
root), the stored flag at level `L` is exactly "the node's `StructOut`
occurs more than once among that ancestor's strict descendants". -/
theorem built_duplicate_levels_correct (fuel : Nat) (env : BuildEnv) (qn : String)
    (cfg : NestedGroupConfig) (ps : Option Bool) (sf : List Field) (reg : Registry)
    (t : NestedStructData) (r' : Registry)
    (h : buildNestedStructData fuel env qn cfg ps sf reg = .ok (t, r')) :
    DupOKList [t] t.children := by
  cases fuel with
  | zero => simp [buildNestedStructData] at h
  | succ n =>
    obtain ⟨query, isAlr, ncfgs, sIn, reg1, children, hq, hred, hAlr, hrest⟩ :=
      build_ok_inversion n env qn cfg ps sf reg t r' h
    obtain ⟨hmT, hmF, hbl, ht⟩ := hrest
    subst ht
    rw [updateDup_mk, List.nil_append, children_mk]
    refine updateDupChildren_DupOK _ _ _ rfl ?_
    intro i s
    rcases i with _ | i
    · rw [List.getD_cons_zero, List.getD_cons_zero]
      exact descCount_mk_updateDup _ _ _ s
    · rfl

/-- Witness for claim C7 at scenario D: the root build succeeds and the
resulting tree (in which `Y` is duplicated below the root but not below
`BoxOut`) satisfies the duplicate-flag correctness predicate. -/
theorem built_duplicate_levels_correct_witness :
    DupOKList [treeD] treeD.children :=
  built_duplicate_levels_correct 20 env4 "GetBoxes" rootCfg4 none
    [fld "ID", fld "Img", fld "Box"] regD treeD regD2 rfl

/-! ## Claim C5: field disjointness for non-composite children -/

/-- Every configuration in a group forest has its `is_composite` flag
explicitly set, recursively through nested groups (the state a full default
population produces; the builder's accessor reads an unset flag as `true`
while the field-exclusion collector reads it as non-composite). -/
def allPopL : NGCList → Bool
  | .nil => true
  | .cons (.mk _ _ _ _ _ _ comp grp _) rest =>
    comp.isSome && allPopL grp && allPopL rest

/-- Registry well-formedness, as the registry builder establishes it: each
entry's direct nested fields are exactly the `StructIn`s of its group, the
group is fully populated, and the transitive excluded-field set contains
every direct nested field. -/
def RegWFb (reg : Registry) : Bool :=
  reg.all (fun e =>
    decide (e.2.directNestedFields = e.2.config.group.toList.map (fun c => c.structIn))
    && allPopL e.2.config.group
    && e.2.directNestedFields.all (fun x => e.2.entityFieldsToExclude.contains x))

/-- The parent/child property claimed: the child is a composite reference,
or its input type name is not among the parent's own extracted field
names. -/
def nonCompChildExcluded (p c : NestedStructDataInfo) : Bool :=
  c.isComposite || !((p.fields.map (fun f => f.name)).contains c.structIn)

theorem nonCompChildExcluded_noDup (p c : NestedStructDataInfo) :
    nonCompChildExcluded (infoNoDup p) (infoNoDup c) = nonCompChildExcluded p c := rfl

theorem ngcToList_cons (h : NestedGroupConfig) (t : NGCList) :
    NGCList.toList (.cons h t) = h :: t.toList := rfl

theorem allPopL_cons (c : NestedGroupConfig) (rest : NGCList) :
    allPopL (.cons c rest) = (c.isComposite.isSome && allPopL c.group && allPopL rest) := by
  cases c
  rfl

theorem getNestedFields_nil (reg : Registry) : getNestedFields reg .nil = [] := rfl

theorem getNestedFields_cons (reg : Registry) (c : NestedGroupConfig) (rest : NGCList) :
    getNestedFields reg (.cons c rest) =
      (if c.isComposite == some true then
        match lookupReg reg c.structOut with
        | some compositeData =>
          if compositeData.directNestedFields.isEmpty then []
          else compositeData.entityFieldsToExclude
        | none => []
      else
        c.structIn :: (if c.group.toList.isEmpty then [] else getNestedFields reg c.group))
      ++ getNestedFields reg rest := by
  cases c
  rfl

theorem toList_ofList (l : List NestedStructData) : (NSDList.ofList l).toList = l := by
  induction l with
  | nil => rfl
  | cons h t ih => rw [NSDList.ofList, toList_cons, ih]

theorem pcPairs_ofList (l : List NestedStructData) :
    (NSDList.ofList l).pcPairs = (l.map NestedStructData.pcPairs).flatten := by
  induction l with
  | nil => rfl
  | cons h t ih => simp [NSDList.ofList, pcPairsL_cons, ih]

theorem RegWF_markGenerated (reg : Registry) (k : String) (h : RegWFb reg = true) :
    RegWFb (markGenerated reg k) = true := by
  rw [RegWFb, List.all_eq_true] at h ⊢
  intro e he
  simp only [markGenerated] at he
  obtain ⟨e0, he0, heq⟩ := List.mem_map.mp he
  have h0 := h e0 he0
  by_cases hk : (e0.1 == k) = true
  · rw [if_pos hk] at heq
    subst heq
    exact h0
  · rw [if_neg hk] at heq
    subst heq
    exact h0

theorem RegWF_lookup (reg : Registry) (k : String) (cd : CompositeStructData)
    (hw : RegWFb reg = true) (hl : lookupReg reg k = some cd) :
    cd.directNestedFields = cd.config.group.toList.map (fun c => c.structIn)
    ∧ allPopL cd.config.group = true
    ∧ ∀ x ∈ cd.directNestedFields, cd.entityFieldsToExclude.contains x = true := by
  rw [lookupReg] at hl
  cases hf : reg.find? (fun e => e.1 == k) with
  | none =>
    rw [hf] at hl
    simp at hl
  | some e =>
    rw [hf] at hl
    have hecd : e.2 = cd := by simpa using hl
    have hmem := List.mem_of_find?_eq_some hf
    rw [RegWFb, List.all_eq_true] at hw
    have h0 := hw e hmem
    simp only [Bool.and_eq_true, decide_eq_true_eq, List.all_eq_true] at h0
    rw [hecd] at h0
    exact ⟨h0.1.1, h0.1.2, h0.2⟩

theorem extractFields_not_contains (sf : List Field) (excl : List String) (r x : String)
    (hx : x ∈ excl) :
    ((extractFields sf excl r).map (fun f => f.name)).contains x = false := by
  rw [Bool.eq_false_iff]
  intro hc
  have hmem : x ∈ (extractFields sf excl r).map (fun f => f.name) := by simpa using hc
  obtain ⟨f, hf, hfx⟩ := List.mem_map.mp hmem
  simp only [extractFields] at hf
  obtain ⟨g, hg, hgf⟩ := List.mem_filterMap.mp hf
  by_cases hge : excl.contains g.name = true
  · rw [if_pos hge] at hgf
    simp at hgf
  · rw [if_neg hge] at hgf
    have hname : f.name = g.name := by
      have := congrArg (fun o => (o.map (fun q => q.name)).getD "") hgf
      simpa using this.symm
    apply hge
    rw [← hname, hfx]
    simpa using hx

theorem mem_getNestedFields_of_nonComposite : ∀ (g : NGCList) (reg : Registry)
    (c : NestedGroupConfig), c ∈ g.toList → c.isComposite = some false →
    c.structIn ∈ getNestedFields reg g
  | .nil, _, _, h, _ => by simp [NGCList.toList] at h
  | .cons hd rest, reg, c, h, hc => by
    rw [ngcToList_cons] at h
    rw [getNestedFields_cons]
    rcases List.mem_cons.mp h with h1 | h1
    · subst h1
      have hcm : (c.isComposite == some true) = false := by
        rw [hc]
        rfl
      rw [if_neg (Bool.eq_false_iff.mp hcm)]
      exact List.mem_append_left _ (List.mem_cons_self _ _)
    · exact List.mem_append_right _ (mem_getNestedFields_of_nonComposite rest reg c h1 hc)

theorem GetIsComposite_false_iff (c : NestedGroupConfig) :
    c.GetIsComposite = false ↔ c.isComposite = some false := by
  cases c with
  | mk fgb fo si so isl isp cm grp mc =>
    cases cm with
    | none =>
      show true = false ↔ none = some false
      simp
    | some b =>
      cases b with
      | false =>
        show false = false ↔ some false = some false
        simp
      | true =>
        show true = false ↔ some true = some false
        simp

theorem GetIsComposite_true_some (c : NestedGroupConfig) (h1 : c.GetIsComposite = true)
    (h2 : c.isComposite.isSome = true) : c.isComposite = some true := by
  cases c with
  | mk fgb fo si so isl isp cm grp mc =>
    cases cm with
    | none => exact Bool.noConfusion h2
    | some b =>
      cases b with
      | true => rfl
      | false => exact Bool.noConfusion h1

theorem built_nonComposite_child_disjoint_main : ∀ (fuel : Nat),
    (∀ (env : BuildEnv) (qn : String) (cfg : NestedGroupConfig) (ps : Option Bool)
      (sf : List Field) (reg : Registry) (t : NestedStructData) (r' : Registry),
      buildNestedStructData fuel env qn cfg ps sf reg = .ok (t, r') →
      RegWFb reg = true → cfg.isComposite.isSome = true → allPopL cfg.group = true →
      RegWFb r' = true
      ∧ (∀ pr ∈ t.pcPairs, nonCompChildExcluded pr.1 pr.2 = true)
      ∧ (t.info.isComposite = false →
          t.info.structIn = cfg.structIn ∧ cfg.isComposite = some false))
    ∧ (∀ (env : BuildEnv) (qn : String) (psk : Bool) (grp : NGCList) (reg : Registry)
      (l : List NestedStructData) (r' : Registry),
      buildNestedStructsList fuel env qn psk grp reg = .ok (l, r') →
      RegWFb reg = true → allPopL grp = true →
      RegWFb r' = true
      ∧ ∀ child ∈ l, (∀ pr ∈ child.pcPairs, nonCompChildExcluded pr.1 pr.2 = true)
        ∧ (child.info.isComposite = false →
            ∃ c, c ∈ grp.toList ∧ c.isComposite = some false
              ∧ child.info.structIn = c.structIn)) := by
  intro fuel
  induction fuel with
  | zero =>
    constructor
    · intro env qn cfg ps sf reg t r' h
      simp [buildNestedStructData] at h
    · intro env qn psk grp reg l r' h
      simp [buildNestedStructsList] at h
  | succ n ih =>
    obtain ⟨ihB, ihL⟩ := ih
    constructor
    · intro env qn cfg ps sf reg t r' h hreg hcomp hpop
      obtain ⟨query, isAlr, ncfgs, sIn, reg1, children, hq, hred, hAlr, hrest⟩ :=
        build_ok_inversion n env qn cfg ps sf reg t r' h
      obtain ⟨hmT, hmF, hbl, ht⟩ := hrest
      subst ht
      have hreg1 : RegWFb reg1 = true := by
        by_cases hc : (ps.isNone || (!IsCompositeStructWillBeGeneratedInAnotherFile env cfg
            && (lookupReg reg cfg.structOut).isSome && !(ps.getD false))) = true
        · obtain ⟨_, he⟩ := hmT hc
          rw [he]
          exact RegWF_markGenerated reg cfg.structOut hreg
        · rw [hmF (Bool.eq_false_iff.mpr hc)]
          exact hreg
      have hpop' : allPopL ncfgs = true := by
        rcases hred with ⟨hT, cd, hlk, hncfg, hsin⟩ | ⟨hF, hncfg, hsin⟩
        · obtain ⟨_, h2, _⟩ := RegWF_lookup reg cfg.structOut cd hreg hlk
          rw [hncfg]
          exact h2
        · rw [hncfg]
          exact hpop
      obtain ⟨hregr, hch⟩ := ihL env qn _ ncfgs reg1 children r' hbl hreg1 hpop'
      refine ⟨hregr, ?_, ?_⟩
      · intro pr hpr
        have himg := List.mem_map_of_mem (fun p => (infoNoDup p.1, infoNoDup p.2)) hpr
        rw [updateDup_pcPairs_infoNoDup] at himg
        obtain ⟨qr, hqr, hqreq⟩ := List.mem_map.mp himg
        have h1 : infoNoDup qr.1 = infoNoDup pr.1 := congrArg Prod.fst hqreq
        have h2 : infoNoDup qr.2 = infoNoDup pr.2 := congrArg Prod.snd hqreq
        have hne : nonCompChildExcluded pr.1 pr.2 = nonCompChildExcluded qr.1 qr.2 := by
          rw [← nonCompChildExcluded_noDup pr.1 pr.2, ← nonCompChildExcluded_noDup qr.1 qr.2,
            h1, h2]
        rw [hne]
        rw [pcPairs_mk] at hqr
        rcases List.mem_append.mp hqr with hq1 | hq1
        · obtain ⟨x, hx, hxq⟩ := List.mem_map.mp hq1
          rw [toList_ofList] at hx
          subst hxq
          simp only [nonCompChildExcluded]
          by_cases hxc : x.info.isComposite = true
          · rw [hxc]
            rfl
          · have hxf : x.info.isComposite = false := Bool.eq_false_iff.mpr hxc
            obtain ⟨c, hcmem, hcfalse, hcsin⟩ := (hch x hx).2 hxf
            rw [hxf, hcsin]
            simp only [Bool.false_or]
            have hmemE : c.structIn ∈ getNestedFields reg (NGCList.cons cfg .nil) := by
              rw [getNestedFields_cons, getNestedFields_nil, List.append_nil]
              rcases hred with ⟨hT, cd, hlk, hncfg, hsin⟩ | ⟨hF, hncfg, hsin⟩
              · have hsome : cfg.isComposite = some true :=
                  GetIsComposite_true_some cfg hT hcomp
                rw [hncfg] at hcmem
                obtain ⟨hdir, _, h3⟩ := RegWF_lookup reg cfg.structOut cd hreg hlk
                have hin : c.structIn ∈ cd.directNestedFields := by
                  rw [hdir]
                  exact List.mem_map_of_mem _ hcmem
                have hnonempty : cd.directNestedFields.isEmpty = false := by
                  cases hE : cd.directNestedFields.isEmpty with
                  | false => rfl
                  | true =>
                    rw [List.isEmpty_iff] at hE
                    rw [hE] at hin
                    simp at hin
                rw [show (cfg.isComposite == some true) = true by rw [hsome]; rfl]
                rw [if_pos rfl, hlk]
                show c.structIn ∈
                  (if cd.directNestedFields.isEmpty then [] else cd.entityFieldsToExclude)
                rw [hnonempty]
                simp only [Bool.false_eq_true, if_false]
                have := h3 c.structIn hin
                simpa using this
              · have hsome : cfg.isComposite = some false :=
                  (GetIsComposite_false_iff cfg).mp hF
                have hcm : (cfg.isComposite == some true) = false := by
                  rw [hsome]
                  rfl
                rw [if_neg (Bool.eq_false_iff.mp hcm)]
                rw [hncfg] at hcmem
                have hne2 : cfg.group.toList.isEmpty = false := by
                  cases hE : cfg.group.toList.isEmpty with
                  | false => rfl
                  | true =>
                    rw [List.isEmpty_iff] at hE
                    rw [hE] at hcmem
                    simp at hcmem
                rw [if_neg (by rw [hne2]; simp)]
                exact List.mem_cons_of_mem _
                  (mem_getNestedFields_of_nonComposite cfg.group reg c hcmem hcfalse)
            have hnc := extractFields_not_contains sf
              (getNestedFields reg (NGCList.cons cfg .nil)) "" c.structIn hmemE
            have hfields : (builtInfo env qn cfg reg sf sIn
                (shouldReuseEntityStruct env cfg.structOut cfg.structIn cfg)
                (!ps.isNone && (isAlr || IsCompositeStructWillBeGeneratedInAnotherFile env cfg
                  || ps.getD false)) ps.isNone).fields =
                extractFields sf (getNestedFields reg (NGCList.cons cfg .nil)) "" := rfl
            rw [hfields, hnc]
            rfl
        · rw [pcPairs_ofList] at hq1
          obtain ⟨ns, hns, hmem2⟩ := List.mem_flatten.mp hq1
          obtain ⟨x, hxl, hxs⟩ := List.mem_map.mp hns
          exact (hch x hxl).1 qr (hxs ▸ hmem2)
      · intro hcf
        have hcf' : cfg.GetIsComposite = false := hcf
        rcases hred with ⟨hT, cd, hlk, hncfg, hsin⟩ | ⟨hF, hncfg, hsin⟩
        · rw [hT] at hcf'
          simp at hcf'
        · exact ⟨hsin, (GetIsComposite_false_iff cfg).mp hF⟩
    · intro env qn psk grp reg l r' h hreg hpop
      cases grp with
      | nil =>
        rw [buildList_nil_ok] at h
        simp only [Res.ok.injEq, Prod.mk.injEq] at h
        refine ⟨by rw [← h.2]; exact hreg, ?_⟩
        intro child hc
        rw [← h.1] at hc
        simp at hc
      | cons c rest =>
        obtain ⟨child, reg1, restl, hc, hrest, hl⟩ :=
          buildList_cons_inversion n env qn psk c rest reg l r' h
        subst hl
        rw [allPopL_cons] at hpop
        simp only [Bool.and_eq_true] at hpop
        obtain ⟨hreg1, hpairs, hroot⟩ :=
          ihB env qn c (some psk) _ reg child reg1 hc hreg hpop.1.1 hpop.1.2
        obtain ⟨hregr, hrestch⟩ := ihL env qn psk rest reg1 restl r' hrest hreg1 hpop.2
        refine ⟨hregr, ?_⟩
        intro x hx
        rcases List.mem_cons.mp hx with hx1 | hx1
        · subst hx1
          refine ⟨hpairs, ?_⟩
          intro hxf
          obtain ⟨hsin, hsome⟩ := hroot hxf
          exact ⟨c, by rw [ngcToList_cons]; exact List.mem_cons_self _ _, hsome, hsin⟩
        · obtain ⟨hp, hex⟩ := hrestch x hx1
          refine ⟨hp, ?_⟩
          intro hxf
          obtain ⟨c2, hc2m, hc2f, hc2s⟩ := hex hxf
          exact ⟨c2, by rw [ngcToList_cons]; exact List.mem_cons_of_mem _ hc2m, hc2f, hc2s⟩

/-- Claim C5 (corrected): in a successfully built tree — built from a
configuration whose `is_composite` flags are all explicitly set and a
well-formed composite registry — the input type name of every
*non-composite* child is excluded from (so disjoint from) its parent's own
extracted field names; the counterexample shows the guarantee does not
extend to composite-reference children, whose own input name can remain
among the parent's fields. -/
theorem built_nonComposite_child_disjoint (fuel : Nat) (env : BuildEnv) (qn : String)
    (cfg : NestedGroupConfig) (ps : Option Bool) (sf : List Field) (reg : Registry)
    (t : NestedStructData) (r' : Registry)
    (h : buildNestedStructData fuel env qn cfg ps sf reg = .ok (t, r'))
    (hreg : RegWFb reg = true) (hcomp : cfg.isComposite.isSome = true)
    (hpop : allPopL cfg.group = true) :
    ∀ pr ∈ t.pcPairs, pr.2.isComposite = false →
      pr.2.structIn ∉ pr.1.fields.map (fun f => f.name) := by
  intro pr hpr hfalse hmem
  obtain ⟨-, hOK, -⟩ :=
    (built_nonComposite_child_disjoint_main fuel).1 env qn cfg ps sf reg t r' h hreg hcomp hpop
  have h1 := hOK pr hpr
  rw [nonCompChildExcluded, hfalse] at h1
  have h2 : ((pr.1.fields.map (fun f => f.name)).contains pr.2.structIn) = false := by
    simpa using h1
  rw [Bool.eq_false_iff] at h2
  exact h2 (by simpa using hmem)

/-- Witness for claim C5 at scenario D: the hypotheses hold concretely and
the built tree's non-composite child `BoxOut` (input `Box`) is indeed absent
from the root's own extracted fields. -/
theorem built_nonComposite_child_disjoint_witness :
    RegWFb regD = true ∧ rootCfg4.isComposite.isSome = true ∧ allPopL rootCfg4.group = true
    ∧ ∀ pr ∈ treeD.pcPairs, pr.2.isComposite = false →
        pr.2.structIn ∉ pr.1.fields.map (fun f => f.name) :=
  ⟨by decide, by decide, by decide,
    built_nonComposite_child_disjoint 20 env4 "GetBoxes" rootCfg4 none
      [fld "ID", fld "Img", fld "Box"] regD treeD regD2 rfl (by decide) (by decide) (by decide)⟩

/-! ## Claim C6: at most one non-root composite node defines an output type -/

/-- The registry's `IsStructAlreadyGenerated` flag for key `X` (false when
the entry is absent). -/
def genFlag (X : String) (reg : Registry) : Bool :=
  match lookupReg reg X with
  | some cd => cd.isStructAlreadyGenerated
  | none => false

/-- Node count of one template-data item (wrapper items carry no tree). -/
def countTD (p : NestedStructDataInfo → Bool) (d : NestedQueryTemplateData) : Nat :=
  match d.rootStructData with
  | some t => countIf p t
  | none => 0

/-- Node count of a list of template-data items. -/
def countTDs (p : NestedStructDataInfo → Bool) (l : List NestedQueryTemplateData) : Nat :=
  (l.map (countTD p)).sum

theorem genFlag_eq_of_lookup (X : String) (reg : Registry) (cd : CompositeStructData)
    (h : lookupReg reg X = some cd) : genFlag X reg = cd.isStructAlreadyGenerated := by
  unfold genFlag
  rw [h]

theorem genFlag_none (X : String) (reg : Registry)
    (h : lookupReg reg X = none) : genFlag X reg = false := by
  unfold genFlag
  rw [h]

theorem find?_key_preserving_map (l : List (String × CompositeStructData))
    (g : String × CompositeStructData → String × CompositeStructData)
    (hg : ∀ e, (g e).1 = e.1) (j : String) :
    List.find? (fun e => e.1 == j) (l.map g) =
      (List.find? (fun e => e.1 == j) l).map g := by
  induction l with
  | nil => rfl
  | cons e rest ih =>
    rw [List.map_cons]
    by_cases hej : (e.1 == j) = true
    · have hgj : ((g e).1 == j) = true := by rw [hg e]; exact hej
      simp [List.find?, hej, hgj]
    · have hej' : (e.1 == j) = false := Bool.eq_false_iff.mpr hej
      have hgj : ((g e).1 == j) = false := by rw [hg e]; exact hej'
      simp [List.find?, hej', hgj, ih]

theorem markGenerated_key (k : String) (e : String × CompositeStructData) :
    (if e.1 == k then (e.1, { e.2 with isStructAlreadyGenerated := true }) else e).1 = e.1 := by
  by_cases h : (e.1 == k) = true
  · rw [if_pos h]
  · rw [if_neg h]

theorem lookupReg_markGenerated (reg : Registry) (k j : String) :
    lookupReg (markGenerated reg k) j =
      (List.find? (fun e => e.1 == j) reg).map
        (fun e => if e.1 == k then { e.2 with isStructAlreadyGenerated := true } else e.2) := by
  unfold lookupReg markGenerated
  rw [find?_key_preserving_map reg _ (markGenerated_key k) j]
  cases List.find? (fun e => e.1 == j) reg with
  | none => rfl
  | some e =>
    by_cases h : (e.1 == k) = true
    · have h2 : e.1 = k := eq_of_beq h
      simp [h2]
    · have h2 : ¬(e.1 = k) := fun hh => h (by rw [hh]; simp)
      simp [h2]

theorem genFlag_markGenerated_mono (X k : String) (reg : Registry)
    (h : genFlag X reg = true) : genFlag X (markGenerated reg k) = true := by
  cases hf : List.find? (fun e => e.1 == X) reg with
  | none =>
    have hl : lookupReg reg X = none := by
      unfold lookupReg
      rw [hf]
      rfl
    rw [genFlag_none X reg hl] at h
    exact Bool.noConfusion h
  | some e =>
    have hl : lookupReg reg X = some e.2 := by
      unfold lookupReg
      rw [hf]
      rfl
    rw [genFlag_eq_of_lookup X reg e.2 hl] at h
    have hl2 : lookupReg (markGenerated reg k) X =
        some (if e.1 == k then { e.2 with isStructAlreadyGenerated := true } else e.2) := by
      rw [lookupReg_markGenerated, hf]
      rfl
    rw [genFlag_eq_of_lookup X (markGenerated reg k) _ hl2]
    by_cases hk : (e.1 == k) = true
    · rw [if_pos hk]
    · rw [if_neg hk]
      exact h

theorem genFlag_markGenerated_self (X : String) (reg : Registry) (cd : CompositeStructData)
    (h : lookupReg reg X = some cd) : genFlag X (markGenerated reg X) = true := by
  cases hf : List.find? (fun e => e.1 == X) reg with
  | none =>
    unfold lookupReg at h
    rw [hf] at h
    exact Option.noConfusion h
  | some e =>
    have hkey0 := List.find?_some hf
    have hkey : (e.1 == X) = true := hkey0
    have hl2 : lookupReg (markGenerated reg X) X =
        some (if e.1 == X then { e.2 with isStructAlreadyGenerated := true } else e.2) := by
      rw [lookupReg_markGenerated, hf]
      rfl
    rw [genFlag_eq_of_lookup X (markGenerated reg X) _ hl2, if_pos hkey]

theorem isAlr_eq_flag (reg : Registry) (cfg : NestedGroupConfig) (cd : CompositeStructData)
    (isAlr : Bool) (hcomp : cfg.GetIsComposite = true)
    (hlk : lookupReg reg cfg.structOut = some cd)
    (h : IsCompositeStructAlreadyGenerated reg cfg = Res.ok isAlr) :
    isAlr = cd.isStructAlreadyGenerated := by
  unfold IsCompositeStructAlreadyGenerated at h
  rw [hcomp, if_pos rfl, hlk] at h
  simp at h
  exact h.symm

theorem countIf_updateDup (p : NestedStructDataInfo → Bool) (t : NestedStructData)
    (anc : List NestedStructData) :
    countIf p (updateDuplicatesFromNodePerspective t anc) = countIf p t := by
  rw [countIf, countIf, updateDup_allNodes_infoNoDup]

theorem countIf_mk (p : NestedStructDataInfo → Bool) (i : NestedStructDataInfo) (cs : NSDList) :
    countIf p (.mk i cs) =
      ((cs.allNodes.map (fun n => infoNoDup n.info)).countP p)
        + (if p (infoNoDup i) then 1 else 0) := by
  rw [countIf, allNodes_mk, List.map_cons, List.countP_cons, info_mk]

theorem countP_ofList (p : NestedStructDataInfo → Bool) (l : List NestedStructData) :
    (((NSDList.ofList l).allNodes.map (fun n => infoNoDup n.info)).countP p) =
      (l.map (countIf p)).sum := by
  induction l with
  | nil => rfl
  | cons h t ih =>
    rw [NSDList.ofList, allNodesL_cons, List.map_append, List.countP_append, ih,
      List.map_cons, List.sum_cons, countIf]

theorem enrc_noDup (X : String) (i : NestedStructDataInfo) :
    enabledNonRootCompositeOut X (infoNoDup i) = enabledNonRootCompositeOut X i := rfl

theorem cX_updateDup_mk_ofList (X : String) (i : NestedStructDataInfo)
    (children : List NestedStructData) :
    countIf (enabledNonRootCompositeOut X)
        (updateDuplicatesFromNodePerspective (.mk i (NSDList.ofList children)) []) =
      (children.map (countIf (enabledNonRootCompositeOut X))).sum
        + (if enabledNonRootCompositeOut X i then 1 else 0) := by
  rw [countIf_updateDup, countIf_mk, countP_ofList, enrc_noDup]

theorem enrc_builtInfo (X : String) (env : BuildEnv) (qn : String)
    (cfg : NestedGroupConfig) (reg : Registry) (sf : List Field) (sIn : String)
    (ient skip isroot : Bool) :
    enabledNonRootCompositeOut X (builtInfo env qn cfg reg sf sIn ient skip isroot) =
      (cfg.structOut == X && cfg.GetIsComposite && !isroot && !skip) := rfl

theorem generate_once_main (X : String) : ∀ (fuel : Nat),
    (∀ (env : BuildEnv) (qn : String) (cfg : NestedGroupConfig) (ps : Option Bool)
      (sf : List Field) (reg : Registry) (t : NestedStructData) (r' : Registry),
      buildNestedStructData fuel env qn cfg ps sf reg = .ok (t, r') →
      (genFlag X reg = true →
        countIf (enabledNonRootCompositeOut X) t = 0 ∧ genFlag X r' = true)
      ∧ (ps = some true → countIf (enabledNonRootCompositeOut X) t = 0)
      ∧ countIf (enabledNonRootCompositeOut X) t ≤ 1
      ∧ (1 ≤ countIf (enabledNonRootCompositeOut X) t → genFlag X r' = true))
    ∧ (∀ (env : BuildEnv) (qn : String) (psk : Bool) (grp : NGCList) (reg : Registry)
      (l : List NestedStructData) (r' : Registry),
      buildNestedStructsList fuel env qn psk grp reg = .ok (l, r') →
      (genFlag X reg = true →
        (l.map (countIf (enabledNonRootCompositeOut X))).sum = 0 ∧ genFlag X r' = true)
      ∧ (psk = true → (l.map (countIf (enabledNonRootCompositeOut X))).sum = 0)
      ∧ (l.map (countIf (enabledNonRootCompositeOut X))).sum ≤ 1
      ∧ (1 ≤ (l.map (countIf (enabledNonRootCompositeOut X))).sum → genFlag X r' = true)) := by
  intro fuel
  induction fuel with
  | zero =>
    constructor
    · intro env qn cfg ps sf reg t r' h
      simp [buildNestedStructData] at h
    · intro env qn psk grp reg l r' h
      simp [buildNestedStructsList] at h
  | succ n ih =>
    obtain ⟨ihB, ihL⟩ := ih
    constructor
    · intro env qn cfg ps sf reg t r' h
      obtain ⟨query, isAlr, ncfgs, sIn, reg1, children, hq, hred, hAlr, hrest⟩ :=
        build_ok_inversion n env qn cfg ps sf reg t r' h
      obtain ⟨hmT, hmF, hbl, ht⟩ := hrest
      subst ht
      obtain ⟨hLa, hLs, hLb, hLc⟩ := ihL env qn _ ncfgs reg1 children r' hbl
      by_cases hP : (cfg.structOut == X && cfg.GetIsComposite && !ps.isNone
          && !(!ps.isNone && (isAlr || IsCompositeStructWillBeGeneratedInAnotherFile env cfg
            || ps.getD false))) = true
      · -- the current node itself defines X
        have h1 := hP
        simp only [Bool.and_eq_true] at h1
        obtain ⟨⟨⟨hOut, hComp⟩, hNR⟩, hNS⟩ := h1
        have hOutE : cfg.structOut = X := eq_of_beq hOut
        have hNone : ps.isNone = false := by simpa using hNR
        have hskipE : (!ps.isNone && (isAlr
            || IsCompositeStructWillBeGeneratedInAnotherFile env cfg || ps.getD false)) = false := by
          rw [Bool.not_eq_true'] at hNS
          exact hNS
        rw [hNone] at hskipE
        have hInner : (isAlr || IsCompositeStructWillBeGeneratedInAnotherFile env cfg
            || ps.getD false) = false := by
          simpa using hskipE
        have hAlrF : isAlr = false := by
          cases hb : isAlr with
          | false => rfl
          | true => rw [hb] at hInner; simp at hInner
        have hWbF : IsCompositeStructWillBeGeneratedInAnotherFile env cfg = false := by
          cases hb : IsCompositeStructWillBeGeneratedInAnotherFile env cfg with
          | false => rfl
          | true => rw [hb] at hInner; simp at hInner
        have hPsF : ps.getD false = false := by
          cases hb : ps.getD false with
          | false => rfl
          | true => rw [hb] at hInner; simp at hInner
        rcases hred with ⟨hT, cd, hlk, hncfg, hsin⟩ | ⟨hF, hncfg, hsin⟩
        · have hcond : (ps.isNone || (!IsCompositeStructWillBeGeneratedInAnotherFile env cfg
              && (lookupReg reg cfg.structOut).isSome && !ps.getD false)) = true := by
            rw [hNone, hlk, hWbF, hPsF]
            simp
          obtain ⟨hsome2, hr1⟩ := hmT hcond
          have hg1 : genFlag X reg1 = true := by
            rw [hr1, hOutE]
            exact genFlag_markGenerated_self X reg cd (hOutE ▸ hlk)
          obtain ⟨hc0, hgr⟩ := hLa hg1
          refine ⟨?_, ?_, ?_, ?_⟩
          · intro hg
            have hAlrT : isAlr = cd.isStructAlreadyGenerated :=
              isAlr_eq_flag reg cfg cd isAlr hComp hlk hAlr
            rw [genFlag_eq_of_lookup X reg cd (hOutE ▸ hlk)] at hg
            rw [hg] at hAlrT
            rw [hAlrT] at hAlrF
            exact Bool.noConfusion hAlrF
          · intro hps
            rw [hps] at hPsF
            simp at hPsF
          · rw [cX_updateDup_mk_ofList, enrc_builtInfo, hP, hc0]
            simp
          · intro hge
            exact hgr
        · rw [hComp] at hF
          exact Bool.noConfusion hF
      · -- the current node does not define X
        have hPf : (cfg.structOut == X && cfg.GetIsComposite && !ps.isNone
            && !(!ps.isNone && (isAlr || IsCompositeStructWillBeGeneratedInAnotherFile env cfg
              || ps.getD false))) = false := Bool.eq_false_iff.mpr hP
        have hg1mono : genFlag X reg = true → genFlag X reg1 = true := by
          intro hg
          by_cases hcnd : (ps.isNone || (!IsCompositeStructWillBeGeneratedInAnotherFile env cfg
              && (lookupReg reg cfg.structOut).isSome && !ps.getD false)) = true
          · obtain ⟨_, hr1⟩ := hmT hcnd
            rw [hr1]
            exact genFlag_markGenerated_mono X cfg.structOut reg hg
          · rw [hmF (Bool.eq_false_iff.mpr hcnd)]
            exact hg
        refine ⟨?_, ?_, ?_, ?_⟩
        · intro hg
          obtain ⟨hc0, hgr⟩ := hLa (hg1mono hg)
          constructor
          · rw [cX_updateDup_mk_ofList, enrc_builtInfo, hPf, hc0]
            simp
          · exact hgr
        · intro hps
          have hskipT : (!ps.isNone && (isAlr
              || IsCompositeStructWillBeGeneratedInAnotherFile env cfg || ps.getD false)) = true := by
            rw [hps]
            simp
          have hc0 := hLs hskipT
          rw [cX_updateDup_mk_ofList, enrc_builtInfo, hPf, hc0]
          simp
        · rw [cX_updateDup_mk_ofList, enrc_builtInfo, hPf]
          simpa using hLb
        · intro hge
          rw [cX_updateDup_mk_ofList, enrc_builtInfo, hPf] at hge
          simp at hge
          exact hLc hge
    · intro env qn psk grp reg l r' h
      cases grp with
      | nil =>
        rw [buildList_nil_ok] at h
        simp only [Res.ok.injEq, Prod.mk.injEq] at h
        obtain ⟨hl, hr⟩ := h
        subst hl
        subst hr
        exact ⟨fun hg => ⟨rfl, hg⟩, fun _ => rfl, by simp, by simp⟩
      | cons c rest =>
        obtain ⟨child, reg2, restl, hc, hrest, hl⟩ :=
          buildList_cons_inversion n env qn psk c rest reg l r' h
        subst hl
        obtain ⟨hBa, hBs, hBb, hBc⟩ := ihB env qn c (some psk) _ reg child reg2 hc
        obtain ⟨hLa, hLs, hLb, hLc⟩ := ihL env qn psk rest reg2 restl r' hrest
        simp only [List.map_cons, List.sum_cons]
        refine ⟨?_, ?_, ?_, ?_⟩
        · intro hg
          obtain ⟨hc1, hg2⟩ := hBa hg
          obtain ⟨hc2, hg3⟩ := hLa hg2
          exact ⟨by rw [hc1, hc2], hg3⟩
        · intro hps
          subst hps
          have hc1 := hBs rfl
          have hg2 : (restl.map (countIf (enabledNonRootCompositeOut X))).sum = 0 :=
            hLs rfl
          rw [hc1, hg2]
        · rcases Nat.eq_zero_or_pos (countIf (enabledNonRootCompositeOut X) child) with hz | hpos
          · rw [hz]
            simpa using hLb
          · have hg2 := hBc hpos
            obtain ⟨hc2, _⟩ := hLa hg2
            rw [hc2]
            simpa using hBb
        · intro hge
          rcases Nat.eq_zero_or_pos (countIf (enabledNonRootCompositeOut X) child) with hz | hpos
          · rw [hz] at hge
            simp at hge
            exact hLc hge
          · have hg2 := hBc hpos
            obtain ⟨hc2, hg3⟩ := hLa hg2
            exact hg3

theorem countTD_wrapper (p : NestedStructDataInfo → Bool) (env : BuildEnv) (q : Query)
    (config : NestedQueryConfig) (fq : String) :
    countTD p (buildNestedWrapperData env q config fq) = 0 := rfl

theorem generate_once_items (X : String) (fuel : Nat) :
    ∀ (qcs : List NestedQueryConfig) (env : BuildEnv) (gsr : List (String × String))
      (reg : Registry) (l : List NestedQueryTemplateData) (r' : Registry),
      buildNestedDataItemsFrom fuel env qcs gsr reg = .ok (l, r') →
      (genFlag X reg = true →
        countTDs (enabledNonRootCompositeOut X) l = 0 ∧ genFlag X r' = true)
      ∧ countTDs (enabledNonRootCompositeOut X) l ≤ 1
      ∧ (1 ≤ countTDs (enabledNonRootCompositeOut X) l → genFlag X r' = true) := by
  intro qcs
  induction qcs with
  | nil =>
    intro env gsr reg l r' h
    rw [buildNestedDataItemsFrom] at h
    simp only [Res.ok.injEq, Prod.mk.injEq] at h
    obtain ⟨hl, hr⟩ := h
    subst hl
    subst hr
    exact ⟨fun hg => ⟨rfl, hg⟩, by simp [countTDs], by simp [countTDs]⟩
  | cons config rest ih =>
    intro env gsr reg l r' h
    rw [buildNestedDataItemsFrom] at h
    cases hfq : env.queries.find?
        (fun q => q.methodName == config.query || q.sourceName == config.query) with
    | none =>
      rw [hfq] at h
      exact ih env gsr reg l r' h
    | some tq =>
      rw [hfq] at h
      dsimp only [] at h
      by_cases hw : (match Option.map (fun e => e.2)
          (List.find? (fun e => e.1 ==
            (if config.structRoot = "" then config.query ++ "Group" else config.structRoot)) gsr) with
          | some fq => fq != config.query
          | none => false) = true
      · rw [if_pos hw] at h
        obtain ⟨rest1, hr1, h2⟩ := Res.bind_eq_ok h
        simp only [Res.ok.injEq, Prod.mk.injEq] at h2
        obtain ⟨hl, hr⟩ := h2
        subst hl
        subst hr
        obtain ⟨ha, hb, hc⟩ := ih env gsr reg rest1.1 rest1.2 hr1
        rw [show countTDs (enabledNonRootCompositeOut X)
            (buildNestedWrapperData env tq config _ :: rest1.1) =
          countTDs (enabledNonRootCompositeOut X) rest1.1 from by
            simp [countTDs, countTD_wrapper]]
        exact ⟨ha, hb, hc⟩
      · rw [if_neg hw] at h
        cases hbd : buildNestedData fuel env tq config reg with
        | fail e =>
          rw [hbd] at h
          simp at h
        | diverge =>
          rw [hbd] at h
          simp at h
        | ok built =>
          rw [hbd] at h
          dsimp only [] at h
          obtain ⟨rest1, hr1, h2⟩ := Res.bind_eq_ok h
          simp only [Res.ok.injEq, Prod.mk.injEq] at h2
          obtain ⟨hl, hr⟩ := h2
          subst hl
          subst hr
          unfold buildNestedData at hbd
          obtain ⟨b, hbB, hb2⟩ := Res.bind_eq_ok hbd
          simp only [Res.ok.injEq] at hb2
          obtain ⟨hBa, hBs, hBb, hBc⟩ :=
            (generate_once_main X fuel).1 _ _ _ _ _ _ _ _ hbB
          obtain ⟨ha, hb, hc⟩ := ih env _ built.2 rest1.1 rest1.2 hr1
          have hcnt : countTDs (enabledNonRootCompositeOut X) (built.1 :: rest1.1) =
              countIf (enabledNonRootCompositeOut X) b.1
                + countTDs (enabledNonRootCompositeOut X) rest1.1 := by
            rw [← hb2]
            simp [countTDs, countTD]
          have hreg2 : built.2 = b.2 := by
            rw [← hb2]
          rw [hcnt]
          rw [hreg2] at ha
          refine ⟨?_, ?_, ?_⟩
          · intro hg
            obtain ⟨hc1, hg2⟩ := hBa hg
            obtain ⟨hc2, hg3⟩ := ha hg2
            exact ⟨by rw [hc1, hc2], hg3⟩
          · rcases Nat.eq_zero_or_pos (countIf (enabledNonRootCompositeOut X) b.1) with hz | hpos
            · rw [hz]
              simpa using hb
            · have hg2 := hBc hpos
              obtain ⟨hc2, _⟩ := ha hg2
              rw [hc2]
              simpa using hBb
          · intro hge
            rcases Nat.eq_zero_or_pos (countIf (enabledNonRootCompositeOut X) b.1) with hz | hpos
            · rw [hz] at hge
              simp at hge
              exact hc hge
            · have hg2 := hBc hpos
              obtain ⟨_, hg3⟩ := ha hg2
              exact hg3

theorem countItems_cons (p : NestedStructDataInfo → Bool) (i : Nested) (rest : List Nested) :
    countItems p (i :: rest) = countTDs p i.nestedDataItems + countItems p rest := rfl

theorem generate_once_loop (X : String) (fuel : Nat) :
    ∀ (items0 : List Nested) (env : BuildEnv) (reg : Registry) (out : List Nested)
      (r' : Registry),
      populateNestedLoop fuel env items0 reg = .ok (out, r') →
      (genFlag X reg = true →
        countItems (enabledNonRootCompositeOut X) out = 0 ∧ genFlag X r' = true)
      ∧ countItems (enabledNonRootCompositeOut X) out ≤ 1
      ∧ (1 ≤ countItems (enabledNonRootCompositeOut X) out → genFlag X r' = true) := by
  intro items0
  induction items0 with
  | nil =>
    intro env reg out r' h
    simp only [populateNestedLoop, Res.ok.injEq, Prod.mk.injEq] at h
    obtain ⟨hl, hr⟩ := h
    subst hl
    subst hr
    exact ⟨fun hg => ⟨rfl, hg⟩, by simp [countItems], by simp [countItems]⟩
  | cons item rest ih =>
    intro env reg out r' h
    rw [populateNestedLoop] at h
    obtain ⟨built, hbi, h2⟩ := Res.bind_eq_ok h
    obtain ⟨rest1, hr1, h3⟩ := Res.bind_eq_ok h2
    simp only [Res.ok.injEq, Prod.mk.injEq] at h3
    obtain ⟨hl, hr⟩ := h3
    subst hl
    subst hr
    obtain ⟨hBa, hBb, hBc⟩ := generate_once_items X fuel item.configs env [] reg built.1 built.2 hbi
    obtain ⟨ha, hb, hc⟩ := ih env built.2 rest1.1 rest1.2 hr1
    rw [countItems_cons]
    refine ⟨?_, ?_, ?_⟩
    · intro hg
      obtain ⟨hc1, hg2⟩ := hBa hg
      obtain ⟨hc2, hg3⟩ := ha hg2
      refine ⟨?_, hg3⟩
      rw [show ({ item with nestedDataItems := built.1 } : Nested).nestedDataItems = built.1
        from rfl, hc1, hc2]
    · rcases Nat.eq_zero_or_pos (countTDs (enabledNonRootCompositeOut X) built.1) with hz | hpos
      · rw [show ({ item with nestedDataItems := built.1 } : Nested).nestedDataItems = built.1
          from rfl, hz]
        simpa using hb
      · have hg2 := hBc hpos
        obtain ⟨hc2, _⟩ := ha hg2
        rw [show ({ item with nestedDataItems := built.1 } : Nested).nestedDataItems = built.1
          from rfl, hc2]
        simpa using hBb
    · intro hge
      rw [show ({ item with nestedDataItems := built.1 } : Nested).nestedDataItems = built.1
        from rfl] at hge
      rcases Nat.eq_zero_or_pos (countTDs (enabledNonRootCompositeOut X) built.1) with hz | hpos
      · rw [hz] at hge
        simp at hge
        exact hc hge
      · have hg2 := hBc hpos
        obtain ⟨_, hg3⟩ := ha hg2
        exact hg3

/-- Claim C6 (corrected): in any successful run, for any output type `X`, at
most one *non-root* composite-reference node across all built trees has
struct generation enabled — the first definer marks the registry entry
generated and every later composite reference skips.  (The counterexample
shows the "exactly one definer overall" reading fails: *root* claims of the
same type in different source files each define it, because the struct-root
bookkeeping is per file and roots never skip.) -/
theorem at_most_one_nonroot_composite_defines (fuel : Nat) (env : BuildEnv)
    (reg0 : Registry) (X : String) (items : List Nested) (r' : Registry)
    (h : populateNestedDataItems fuel env reg0 = .ok (items, r')) :
    countItems (enabledNonRootCompositeOut X) items ≤ 1 := by
  unfold populateNestedDataItems at h
  obtain ⟨reg1, hregb, hloop⟩ := Res.bind_eq_ok h
  exact (generate_once_loop X fuel env.nested env reg1 items r' hloop).2.1

def run4 : Res (List Nested × Registry) := populateNestedDataItems 20 env4 []

def run4items : List Nested :=
  match run4 with
  | .ok (items, _) => items
  | _ => []

def run4reg : Registry :=
  match run4 with
  | .ok (_, reg) => reg
  | _ => []

/-- Witness for claim C6 at scenario D: the run succeeds, exactly one
non-root composite node defines `Y` (the second reference skips), and the
bound is met. -/
theorem at_most_one_nonroot_composite_defines_witness :
    populateNestedDataItems 20 env4 [] = Res.ok (run4items, run4reg)
    ∧ countItems (enabledNonRootCompositeOut "Y") run4items = 1
    ∧ countItems (enabledNonRootCompositeOut "Y") run4items ≤ 1 :=
  ⟨rfl, by decide,
    at_most_one_nonroot_composite_defines 20 env4 [] "Y" run4items run4reg rfl⟩

/-! ## Claim C9: idempotence of ToPascalCaseWithInitialisms -/

/-- A non-empty word of ASCII lowercase letters. -/
def lowWord (w : List Nat) : Bool := !w.isEmpty && w.all lowAlpha

/-- A lowercase word usable before the last position: at least two letters
and not an initialism. -/
def frontWordOK (w : List Nat) : Bool :=
  lowWord w && decide (2 ≤ w.length) && !(commonInitialisms.contains (w.map toUpp))

/-- A title-cased block: one uppercase letter followed by at least one
non-uppercase character. -/
def titleBlock : List Nat → Bool
  | [] => false
  | [_] => false
  | c :: d :: t => isUp c && ((d :: t).all (fun x => !isUp x))

/-- No camel-case boundary (non-uppercase followed by uppercase) inside. -/
def noBoundB : List Nat → Bool
  | [] => true
  | [_] => true
  | c :: d :: t => !(!isUp c && isUp d) && noBoundB (d :: t)

/-- A block acceptable in last position: starts uppercase, no internal
camel-case boundary. -/
def lastBlock : List Nat → Bool
  | [] => false
  | c :: t => isUp c && noBoundB (c :: t)

/-- The part list ToPascalCaseWithInitialisms splits a non-empty input
into. -/
def pascalParts (s : List Nat) : List (List Nat) :=
  splitUnderscore (if s.contains usc then s else PascalToSnakeCase s)

theorem ToPascal_eq (s : List Nat) (h : ¬(s = [])) :
    ToPascalCaseWithInitialisms s =
      (((pascalParts s).filter (fun p => !p.isEmpty)).map renderPart).flatten := by
  unfold ToPascalCaseWithInitialisms pascalParts
  rw [if_neg h]

theorem renderPart_of_contains (p : List Nat)
    (h : commonInitialisms.contains (p.map toUpp) = true) :
    renderPart p = p.map toUpp := by
  simp only [renderPart]
  rw [h]
  simp

theorem renderPart_title (c : Nat) (t : List Nat)
    (h : commonInitialisms.contains ((c :: t).map toUpp) = false) :
    renderPart (c :: t) = toUpp c :: t.map toLow := by
  simp only [renderPart]
  rw [h]
  simp

theorem toLow_low (c : Nat) (h : lowAlpha c = true) : toLow c = c := by
  unfold lowAlpha at h
  simp at h
  unfold toLow
  rw [if_neg (by simp; omega)]

theorem toLow_toUpp (c : Nat) (h : lowAlpha c = true) : toLow (toUpp c) = c := by
  unfold lowAlpha at h
  simp at h
  unfold toUpp
  rw [if_pos (by simp; omega)]
  unfold toLow
  rw [if_pos (by simp; omega)]
  omega

theorem isUp_toUpp (c : Nat) (h : lowAlpha c = true) : isUp (toUpp c) = true := by
  unfold lowAlpha at h
  simp at h
  unfold toUpp
  rw [if_pos (by simp; omega)]
  unfold isUp
  simp
  omega

theorem isUp_low_false (c : Nat) (h : lowAlpha c = true) : isUp c = false := by
  unfold lowAlpha at h
  simp at h
  unfold isUp
  simp
  omega

theorem toLow_usc : toLow usc = usc := rfl

theorem map_toLow_low (t : List Nat) (h : t.all lowAlpha = true) : t.map toLow = t := by
  rw [List.all_eq_true] at h
  exact (List.map_congr_left (fun c hc => toLow_low c (h c hc))).trans (List.map_id t)

/-- splitUnderscore on an underscore-free word. -/
theorem splitUnderscore_no_usc : ∀ (w : List Nat), usc ∉ w → splitUnderscore w = [w]
  | [], _ => rfl
  | c :: w', h => by
    have hc : ¬(c = usc) := fun hh => h (hh ▸ List.mem_cons_self c w')
    simp only [splitUnderscore]
    rw [if_neg hc, splitUnderscore_no_usc w' (fun hm => h (List.mem_cons_of_mem c hm))]

/-- splitUnderscore distributes over prepending an underscore-free word. -/
theorem splitUnderscore_append : ∀ (w l : List Nat) (p : List Nat) (ps : List (List Nat)),
    usc ∉ w → splitUnderscore l = p :: ps → splitUnderscore (w ++ l) = (w ++ p) :: ps
  | [], l, p, ps, _, hl => by simpa using hl
  | c :: w', l, p, ps, h, hl => by
    have hc : ¬(c = usc) := fun hh => h (hh ▸ List.mem_cons_self c w')
    have ih := splitUnderscore_append w' l p ps (fun hm => h (List.mem_cons_of_mem c hm)) hl
    show splitUnderscore (c :: (w' ++ l)) = ((c :: w') ++ p) :: ps
    simp only [splitUnderscore]
    rw [if_neg hc, ih]
    simp

theorem joinU_single (p : List Nat) : joinUnderscore [p] = p := rfl

theorem joinU_cons2 (p q : List Nat) (rest : List (List Nat)) :
    joinUnderscore (p :: q :: rest) = p ++ usc :: joinUnderscore (q :: rest) := rfl

/-- splitUnderscore inverts joinUnderscore on underscore-free words. -/
theorem splitUnderscore_joinUnderscore : ∀ (p : List Nat) (ps : List (List Nat)),
    (∀ w ∈ p :: ps, usc ∉ w) → splitUnderscore (joinUnderscore (p :: ps)) = p :: ps
  | p, [], h => by
    rw [joinU_single]
    exact splitUnderscore_no_usc p (h p (List.mem_cons_self _ _))
  | p, q :: rest, h => by
    have hq := splitUnderscore_joinUnderscore q rest (fun w hw => h w (List.mem_cons_of_mem _ hw))
    rw [joinU_cons2]
    have hmid : splitUnderscore (usc :: joinUnderscore (q :: rest)) = [] :: (q :: rest) := by
      simp only [splitUnderscore]
      simp [hq]
    rw [splitUnderscore_append p _ [] (q :: rest) (h p (List.mem_cons_self _ _)) hmid]
    simp

theorem insertCamel_no_up : ∀ (s2 : List Nat), (∀ c ∈ s2, isUp c = false) →
    insertCamelUnderscores s2 = s2
  | [], _ => rfl
  | [_], _ => rfl
  | c :: d :: rest, h => by
    have hd : isUp d = false := h d (by simp)
    simp only [insertCamelUnderscores]
    rw [hd]
    simp only [Bool.and_false, Bool.false_eq_true, if_false]
    rw [insertCamel_no_up (d :: rest) (fun x hx => h x (List.mem_cons_of_mem _ hx))]

theorem map_toLow_no_up (s2 : List Nat) (h : ∀ c ∈ s2, isUp c = false) :
    s2.map toLow = s2 := by
  refine (List.map_congr_left (fun c hc => ?_)).trans (List.map_id s2)
  have hcf := h c hc
  unfold isUp at hcf
  unfold toLow
  rw [hcf]
  simp

theorem PascalToSnakeCase_no_up (s2 : List Nat) (h : ∀ c ∈ s2, isUp c = false) :
    PascalToSnakeCase s2 = s2 := by
  unfold PascalToSnakeCase
  rw [insertCamel_no_up s2 h, map_toLow_no_up s2 h]

theorem mem_joinUnderscore : ∀ (bs : List (List Nat)) (c : Nat),
    c ∈ joinUnderscore bs → c = usc ∨ ∃ b ∈ bs, c ∈ b
  | [], c, h => by simp [joinUnderscore] at h
  | [p], c, h => by
    rw [joinU_single] at h
    exact Or.inr ⟨p, List.mem_cons_self _ _, h⟩
  | p :: q :: rest, c, h => by
    rw [joinU_cons2] at h
    rcases List.mem_append.mp h with h1 | h1
    · exact Or.inr ⟨p, List.mem_cons_self _ _, h1⟩
    · rcases List.mem_cons.mp h1 with h2 | h2
      · exact Or.inl h2
      · rcases mem_joinUnderscore (q :: rest) c h2 with h3 | ⟨b, hb, hcb⟩
        · exact Or.inl h3
        · exact Or.inr ⟨b, List.mem_cons_of_mem _ hb, hcb⟩

theorem insertCamel_noBound : ∀ (b : List Nat), noBoundB b = true →
    insertCamelUnderscores b = b
  | [], _ => rfl
  | [_], _ => rfl
  | c :: d :: t, h => by
    simp only [noBoundB, Bool.and_eq_true] at h
    simp only [insertCamelUnderscores]
    rw [show (!isUp c && isUp d) = false from by
      rcases h with ⟨h1, _⟩
      rw [Bool.not_eq_true'] at h1
      exact h1]
    simp only [Bool.false_eq_true, if_false]
    rw [insertCamel_noBound (d :: t) h.2]

/-- Inserting through an all-non-uppercase run followed by an
uppercase-headed suffix puts one underscore at the boundary. -/
theorem insertCamel_low_block : ∀ (body r : List Nat),
    body.all (fun x => !isUp x) = true → body ≠ [] →
    (∃ e r', r = e :: r' ∧ isUp e = true) →
    insertCamelUnderscores (body ++ r) = body ++ usc :: insertCamelUnderscores r
  | [], _, _, hne, _ => absurd rfl hne
  | [d], r, hall, _, ⟨e, r', hr, he⟩ => by
    subst hr
    have hd : isUp d = false := by
      simp only [List.all_cons, Bool.and_eq_true] at hall
      simpa using hall.1
    show insertCamelUnderscores (d :: e :: r') = d :: usc :: insertCamelUnderscores (e :: r')
    simp only [insertCamelUnderscores]
    rw [hd, he]
    simp
  | d :: d2 :: body', r, hall, _, hex => by
    simp only [List.all_cons, Bool.and_eq_true] at hall
    have hd2 : isUp d2 = false := by simpa using hall.2.1
    have ih := insertCamel_low_block (d2 :: body') r
      (by simp only [List.all_cons, Bool.and_eq_true]; exact ⟨hall.2.1, hall.2.2⟩)
      (by simp) hex
    have ih2 : insertCamelUnderscores (d2 :: (body' ++ r)) =
        d2 :: (body' ++ usc :: insertCamelUnderscores r) := by simpa using ih
    show insertCamelUnderscores (d :: d2 :: (body' ++ r)) =
      d :: d2 :: (body' ++ usc :: insertCamelUnderscores r)
    simp only [insertCamelUnderscores]
    rw [hd2]
    simp only [Bool.and_false, Bool.false_eq_true, if_false]
    rw [ih2]

theorem flatten_head_up (ts : List (List Nat)) (L : List Nat)
    (hts : ∀ b ∈ ts, titleBlock b = true) (hL : lastBlock L = true) :
    ∃ e r', (ts ++ [L]).flatten = e :: r' ∧ isUp e = true := by
  cases ts with
  | nil =>
    cases L with
    | nil => simp [lastBlock] at hL
    | cons c t =>
      refine ⟨c, t, by simp, ?_⟩
      simp only [lastBlock, Bool.and_eq_true] at hL
      exact hL.1
  | cons t ts' =>
    have ht := hts t (List.mem_cons_self _ _)
    cases t with
    | nil => simp [titleBlock] at ht
    | cons c t' =>
      refine ⟨c, t' ++ (ts' ++ [L]).flatten, by simp, ?_⟩
      cases t' with
      | nil => simp [titleBlock] at ht
      | cons d t'' =>
        simp only [titleBlock, Bool.and_eq_true] at ht
        exact ht.1

/-- The camel-boundary insertion over a sequence of title blocks followed by
one last block re-inserts exactly the underscores between blocks. -/
theorem insertCamel_blocks : ∀ (ts : List (List Nat)) (L : List Nat),
    (∀ b ∈ ts, titleBlock b = true) → lastBlock L = true →
    insertCamelUnderscores ((ts ++ [L]).flatten) = joinUnderscore (ts ++ [L])
  | [], L, _, hL => by
    simp only [List.nil_append, List.flatten_cons, List.flatten_nil, List.append_nil]
    rw [joinU_single]
    cases L with
    | nil => simp [lastBlock] at hL
    | cons c t =>
      simp only [lastBlock, Bool.and_eq_true] at hL
      exact insertCamel_noBound (c :: t) hL.2
  | t :: ts', L, hts, hL => by
    have ht := hts t (List.mem_cons_self _ _)
    cases t with
    | nil => simp [titleBlock] at ht
    | cons c t' =>
      cases t' with
      | nil => simp [titleBlock] at ht
      | cons d t'' =>
        simp only [titleBlock, Bool.and_eq_true] at ht
        have hup : isUp c = true := ht.1
        have hlow : (d :: t'').all (fun x => !isUp x) = true := ht.2
        have hd : isUp d = false := by
          simp only [List.all_cons, Bool.and_eq_true] at hlow
          simpa using hlow.1
        have hex := flatten_head_up ts' L (fun b hb => hts b (List.mem_cons_of_mem _ hb)) hL
        have ih := insertCamel_blocks ts' L (fun b hb => hts b (List.mem_cons_of_mem _ hb)) hL
        have hfl : ((c :: d :: t'') :: (ts' ++ [L])).flatten =
            c :: ((d :: t'') ++ (ts' ++ [L]).flatten) := by simp
        rw [show (c :: d :: t'') :: ts' ++ [L] = (c :: d :: t'') :: (ts' ++ [L]) from rfl, hfl]
        have hstep : insertCamelUnderscores (c :: ((d :: t'') ++ (ts' ++ [L]).flatten)) =
            c :: insertCamelUnderscores ((d :: t'') ++ (ts' ++ [L]).flatten) := by
          have hcons2 : (d :: t'') ++ (ts' ++ [L]).flatten =
              d :: (t'' ++ (ts' ++ [L]).flatten) := rfl
          rw [hcons2]
          simp only [insertCamelUnderscores]
          rw [hd]
          simp
        rw [hstep, insertCamel_low_block (d :: t'') ((ts' ++ [L]).flatten) hlow (by simp) hex,
          ih]
        have hne : ∃ q qs, ts' ++ [L] = q :: qs := by
          cases ts' with
          | nil => exact ⟨L, [], rfl⟩
          | cons a b => exact ⟨a, b ++ [L], rfl⟩
        obtain ⟨q, qs, hq⟩ := hne
        rw [hq, joinU_cons2]
        rfl

theorem joinUnderscore_map_toLow : ∀ (bs : List (List Nat)),
    (joinUnderscore bs).map toLow = joinUnderscore (bs.map (List.map toLow))
  | [] => rfl
  | [p] => rfl
  | p :: q :: rest => by
    rw [joinU_cons2, List.map_append, List.map_cons, toLow_usc,
      joinUnderscore_map_toLow (q :: rest)]
    rfl

theorem renderPart_map_toLow (w : List Nat) (h : lowWord w = true) :
    (renderPart w).map toLow = w := by
  simp only [lowWord, Bool.and_eq_true] at h
  obtain ⟨hne, hall⟩ := h
  by_cases hc : commonInitialisms.contains (w.map toUpp) = true
  · rw [renderPart_of_contains w hc, List.map_map]
    rw [List.all_eq_true] at hall
    exact (List.map_congr_left (fun c hcm => toLow_toUpp c (hall c hcm))).trans (List.map_id w)
  · cases w with
    | nil => simp at hne
    | cons c t =>
      rw [renderPart_title c t (Bool.eq_false_iff.mpr hc)]
      simp only [List.all_cons, Bool.and_eq_true] at hall
      rw [map_toLow_low t hall.2, List.map_cons, map_toLow_low t hall.2,
        toLow_toUpp c hall.1]

theorem renderPart_ne_nil (w : List Nat) (h : lowWord w = true) : renderPart w ≠ [] := by
  intro hz
  have := renderPart_map_toLow w h
  rw [hz] at this
  simp only [lowWord, Bool.and_eq_true] at h
  rw [← this] at h
  simp at h

theorem renderPart_titleBlock (w : List Nat) (h : frontWordOK w = true) :
    titleBlock (renderPart w) = true := by
  simp only [frontWordOK, Bool.and_eq_true] at h
  obtain ⟨⟨hlw, hlen⟩, hni⟩ := h
  simp only [lowWord, Bool.and_eq_true] at hlw
  obtain ⟨hne, hall⟩ := hlw
  cases w with
  | nil => simp at hne
  | cons c t =>
    cases t with
    | nil => simp at hlen
    | cons d t' =>
      rw [renderPart_title c (d :: t') (by simpa using hni)]
      simp only [List.all_cons, Bool.and_eq_true] at hall
      rw [List.map_cons, toLow_low d hall.2.1, map_toLow_low t' hall.2.2]
      simp only [titleBlock, Bool.and_eq_true]
      refine ⟨isUp_toUpp c hall.1, ?_⟩
      simp only [List.all_cons, Bool.and_eq_true]
      refine ⟨by rw [isUp_low_false d hall.2.1]; rfl, ?_⟩
      rw [List.all_eq_true]
      intro x hx
      have hxl := (List.all_eq_true.mp hall.2.2) x hx
      rw [isUp_low_false x hxl]
      rfl

theorem noBoundB_lowTail : ∀ (c : Nat) (t : List Nat),
    t.all (fun x => !isUp x) = true → noBoundB (c :: t) = true
  | _, [], _ => rfl
  | c, t0 :: t', h => by
    simp only [List.all_cons, Bool.and_eq_true] at h
    have ht0 : isUp t0 = false := by simpa using h.1
    simp only [noBoundB, Bool.and_eq_true]
    refine ⟨by rw [ht0]; simp, ?_⟩
    exact noBoundB_lowTail t0 t' h.2

theorem noBoundB_allUp : ∀ (b : List Nat), b.all isUp = true → noBoundB b = true
  | [], _ => rfl
  | [_], _ => rfl
  | c :: d :: t, h => by
    simp only [List.all_cons, Bool.and_eq_true] at h
    simp only [noBoundB, Bool.and_eq_true]
    refine ⟨by rw [h.1]; simp, ?_⟩
    exact noBoundB_allUp (d :: t) (by
      simp only [List.all_cons, Bool.and_eq_true]
      exact ⟨h.2.1, h.2.2⟩)

theorem renderPart_lastBlock (w : List Nat) (h : lowWord w = true) :
    lastBlock (renderPart w) = true := by
  simp only [lowWord, Bool.and_eq_true] at h
  obtain ⟨hne, hall⟩ := h
  cases w with
  | nil => simp at hne
  | cons c t =>
    simp only [List.all_cons, Bool.and_eq_true] at hall
    by_cases hc : commonInitialisms.contains ((c :: t).map toUpp) = true
    · rw [renderPart_of_contains (c :: t) hc, List.map_cons]
      simp only [lastBlock, Bool.and_eq_true]
      refine ⟨isUp_toUpp c hall.1, ?_⟩
      apply noBoundB_allUp
      simp only [List.all_cons, Bool.and_eq_true]
      refine ⟨isUp_toUpp c hall.1, ?_⟩
      rw [List.all_eq_true]
      intro x hx
      obtain ⟨y, hy, hyx⟩ := List.mem_map.mp hx
      rw [List.all_eq_true] at *
      rw [← hyx]
      exact isUp_toUpp y (hall.2 y hy)
    · rw [renderPart_title c t (Bool.eq_false_iff.mpr hc), map_toLow_low t hall.2]
      simp only [lastBlock, Bool.and_eq_true]
      refine ⟨isUp_toUpp c hall.1, ?_⟩
      apply noBoundB_lowTail
      rw [List.all_eq_true]
      intro x hx
      have hxl := (List.all_eq_true.mp hall.2) x hx
      rw [isUp_low_false x hxl]
      rfl

theorem usc_not_lowAlpha : lowAlpha usc = false := rfl

theorem lowWord_no_usc (w : List Nat) (h : lowWord w = true) : usc ∉ w := by
  intro hm
  simp only [lowWord, Bool.and_eq_true, List.all_eq_true] at h
  have h2 := h.2 usc hm
  rw [usc_not_lowAlpha] at h2
  exact Bool.noConfusion h2

theorem lowWord_ne_nil (w : List Nat) (h : lowWord w = true) : w ≠ [] := by
  intro hz
  subst hz
  simp [lowWord] at h

theorem renderPart_no_usc (w : List Nat) (h : lowWord w = true) : usc ∉ renderPart w := by
  intro hm
  have h2 : toLow usc ∈ (renderPart w).map toLow := List.mem_map_of_mem toLow hm
  rw [toLow_usc, renderPart_map_toLow w h] at h2
  exact lowWord_no_usc w h h2

theorem joinUnderscore_ne_nil (p : List Nat) (ps : List (List Nat)) (hp : p ≠ []) :
    joinUnderscore (p :: ps) ≠ [] := by
  cases ps with
  | nil => exact hp
  | cons q rest =>
    rw [joinU_cons2]
    intro h
    obtain ⟨_, h2⟩ := List.append_eq_nil.mp h
    exact List.noConfusion h2

/-- Claim C9, counterexample: ToPascalCaseWithInitialisms is not idempotent —
`api_id` renders as `APIID`, and re-rendering `APIID` yields `Apiid`, because
re-splitting finds no boundary inside the adjacent acronyms. -/
theorem toPascal_not_idempotent :
    ToPascalCaseWithInitialisms (ToPascalCaseWithInitialisms (str "api_id")) ≠
      ToPascalCaseWithInitialisms (str "api_id")
    ∧ ToPascalCaseWithInitialisms (str "api_id") = str "APIID"
    ∧ ToPascalCaseWithInitialisms (ToPascalCaseWithInitialisms (str "api_id")) = str "Apiid" := by
  refine ⟨by decide, by decide, by decide⟩

/-- Claim C9 (corrected): ToPascalCaseWithInitialisms *is* idempotent on
snake_case identifiers whose words are lowercase, provided every word
before the last has at least two letters and is not an initialism (the
last word is unrestricted among lowercase words, so it may be an
initialism); the counterexample shows idempotence fails outside this class,
e.g. when an initialism is followed by another word. -/
theorem toPascal_idempotent_on_words (front : List (List Nat)) (lastw : List Nat)
    (hf : ∀ w ∈ front, frontWordOK w = true) (hl : lowWord lastw = true) :
    ToPascalCaseWithInitialisms (ToPascalCaseWithInitialisms (joinUnderscore (front ++ [lastw])))
      = ToPascalCaseWithInitialisms (joinUnderscore (front ++ [lastw])) := by
  have hlw : ∀ w ∈ front ++ [lastw], lowWord w = true := by
    intro w hw
    rcases List.mem_append.mp hw with h1 | h1
    · have h2 := hf w h1
      simp only [frontWordOK, Bool.and_eq_true] at h2
      exact h2.1.1
    · rw [List.mem_singleton.mp h1]
      exact hl
  have husc : ∀ w ∈ front ++ [lastw], usc ∉ w := fun w hw => lowWord_no_usc w (hlw w hw)
  obtain ⟨p0, ps0, hcons⟩ : ∃ p0 ps0, front ++ [lastw] = p0 :: ps0 := by
    cases front with
    | nil => exact ⟨lastw, [], rfl⟩
    | cons a b => exact ⟨a, b ++ [lastw], rfl⟩
  have hsplit : splitUnderscore (joinUnderscore (front ++ [lastw])) = front ++ [lastw] := by
    rw [hcons]
    exact splitUnderscore_joinUnderscore p0 ps0 (hcons ▸ husc)
  have hne : joinUnderscore (front ++ [lastw]) ≠ [] := by
    rw [hcons]
    refine joinUnderscore_ne_nil p0 ps0 ?_
    have hp0 : p0 ∈ front ++ [lastw] := by
      rw [hcons]
      exact List.mem_cons_self _ _
    exact lowWord_ne_nil p0 (hlw p0 hp0)
  have hnoUp : ∀ c ∈ joinUnderscore (front ++ [lastw]), isUp c = false := by
    intro c hc
    rcases mem_joinUnderscore _ c hc with h1 | ⟨b, hb, hcb⟩
    · subst h1
      decide
    · have h2 := hlw b hb
      simp only [lowWord, Bool.and_eq_true, List.all_eq_true] at h2
      exact isUp_low_false c (h2.2 c hcb)
  have hsnake : (if (joinUnderscore (front ++ [lastw])).contains usc
      then joinUnderscore (front ++ [lastw])
      else PascalToSnakeCase (joinUnderscore (front ++ [lastw])))
      = joinUnderscore (front ++ [lastw]) := by
    by_cases hcn : (joinUnderscore (front ++ [lastw])).contains usc = true
    · rw [if_pos hcn]
    · rw [if_neg hcn]
      exact PascalToSnakeCase_no_up _ hnoUp
  have hfilter : (front ++ [lastw]).filter (fun p => !p.isEmpty) = front ++ [lastw] := by
    rw [List.filter_eq_self]
    intro w hw
    have h2 := lowWord_ne_nil w (hlw w hw)
    simp [List.isEmpty_iff, h2]
  have hfs : ToPascalCaseWithInitialisms (joinUnderscore (front ++ [lastw])) =
      ((front ++ [lastw]).map renderPart).flatten := by
    rw [ToPascal_eq _ hne]
    unfold pascalParts
    rw [hsnake, hsplit, hfilter]
  have hRlow : ∀ b ∈ (front ++ [lastw]).map renderPart, usc ∉ b := by
    intro b hb
    obtain ⟨w, hw, hwb⟩ := List.mem_map.mp hb
    rw [← hwb]
    exact renderPart_no_usc w (hlw w hw)
  have hR_nousc : (((front ++ [lastw]).map renderPart).flatten).contains usc = false := by
    rw [Bool.eq_false_iff]
    intro hcn
    have hm : usc ∈ ((front ++ [lastw]).map renderPart).flatten := by simpa using hcn
    obtain ⟨b, hb, hmb⟩ := List.mem_flatten.mp hm
    exact hRlow b hb hmb
  have hR_ne : ((front ++ [lastw]).map renderPart).flatten ≠ [] := by
    intro hz
    have hlme : renderPart lastw ∈ (front ++ [lastw]).map renderPart :=
      List.mem_map_of_mem renderPart (List.mem_append_right _ (List.mem_cons_self _ _))
    cases hrp : renderPart lastw with
    | nil => exact renderPart_ne_nil lastw hl hrp
    | cons c t =>
      have hcm : c ∈ ((front ++ [lastw]).map renderPart).flatten :=
        List.mem_flatten.mpr ⟨renderPart lastw, hlme, by rw [hrp]; exact List.mem_cons_self _ _⟩
      rw [hz] at hcm
      simp at hcm
  have htb : ∀ b ∈ front.map renderPart, titleBlock b = true := by
    intro b hb
    obtain ⟨w, hw, hwb⟩ := List.mem_map.mp hb
    rw [← hwb]
    exact renderPart_titleBlock w (hf w hw)
  have hlb : lastBlock (renderPart lastw) = true := renderPart_lastBlock lastw hl
  have hR2S : PascalToSnakeCase (((front ++ [lastw]).map renderPart).flatten) =
      joinUnderscore (front ++ [lastw]) := by
    unfold PascalToSnakeCase
    rw [List.map_append]
    simp only [List.map_cons, List.map_nil]
    rw [insertCamel_blocks (front.map renderPart) (renderPart lastw) htb hlb,
      joinUnderscore_map_toLow]
    congr 1
    rw [List.map_append]
    simp only [List.map_cons, List.map_nil]
    rw [List.map_map]
    congr 1
    · refine (List.map_congr_left fun w hw => ?_).trans (List.map_id front)
      exact renderPart_map_toLow w (hlw w (List.mem_append_left _ hw))
    · rw [renderPart_map_toLow lastw hl]
  rw [hfs, ToPascal_eq _ hR_ne]
  unfold pascalParts
  rw [if_neg (Bool.eq_false_iff.mp hR_nousc), hR2S, hsplit, hfilter]

/-- Witness for claim C9 at `user_id`: the hypotheses hold and the rendering
(`UserID`) is a fixed point of a second application. -/
theorem toPascal_idempotent_on_words_witness :
    (∀ w ∈ [str "user"], frontWordOK w = true) ∧ lowWord (str "id") = true
    ∧ ToPascalCaseWithInitialisms
        (ToPascalCaseWithInitialisms (joinUnderscore ([str "user"] ++ [str "id"])))
      = ToPascalCaseWithInitialisms (joinUnderscore ([str "user"] ++ [str "id"])) :=
  ⟨by decide, by decide,
    toPascal_idempotent_on_words [str "user"] (str "id") (by decide) (by decide)⟩

end golang
